import Mathlib

/-!
A shallow embedding of the ranked-stats pipeline (Tumblewood/ranked-stats):
the bit-level event decoder (`src/events_reader.rs`), the event fuser and
replay of `process_ranked_match` (`src/event_processor.rs`), the
`RankedStatConfig` stat engine and pattern scanners (`src/ranked_analysis.rs`),
and the per-game stat collector of the records pipeline (`src/records.rs`).

Machine integers (`usize`) are embedded as `Nat` (the decoded values are
small and never overflow 64 bits on the real inputs; all arithmetic in the
sources is plain addition/subtraction/shifting on in-range values), `isize`
as `Int`.  Byte buffers are `List Nat` (one entry per byte; the base64
decoding done by `EventsReader::new` is an external bijection between the
input string and the byte buffer and is not modelled).  Rust `while` loops
are embedded as structurally recursive functions on an explicit fuel that is
provably sufficient (the cursor strictly advances, see the termination
theorem), so every definition is executable by the kernel.
-/

namespace RankedStats

/-- `Team` from `src/events_reader.rs` (discriminants 0, 1, 2). -/
inductive Team where
  | none | red | blue
deriving DecidableEq, Repr

/-- `Flag` from `src/events_reader.rs` (discriminants 0..5). -/
inductive Flag where
  | none | opponent | opponentPotato | neutral | neutralPotato | temporary
deriving DecidableEq, Repr

/-- `Event` from `src/events_reader.rs`.  `End` and `Return` are Lean
keywords and are embedded as `end_` and `return_`. -/
inductive Event where
  | join | quit | switch | end_ | grab | capture | flaglessCapture
  | powerup | duplicatePowerup | powerdown | return_ | tag | drop | pop
  | startPrevent | stopPrevent | startButton | stopButton | startBlock | stopBlock
deriving DecidableEq, Repr

/-- `PlayerEvent` from `src/events_reader.rs`. -/
structure PlayerEvent where
  event_type : Event
  time : Nat
  flag : Flag
  powerups : Nat
  team : Team
deriving DecidableEq, Repr

/-- `EventsReader` from `src/events_reader.rs`: a byte buffer plus a bit
cursor. -/
structure EventsReader where
  data : List Nat
  pos : Nat
deriving DecidableEq, Repr

/-- `EventsReader::events_remaining`: `(self.pos >> 3) < self.data.len()`. -/
def events_remaining (r : EventsReader) : Bool :=
  r.pos / 8 < r.data.length

/-- `EventsReader::read_bool`: reads the next bit MSB-first and advances the
cursor; past the end of the buffer it returns `false` without advancing. -/
def read_bool (r : EventsReader) : Bool × EventsReader :=
  if events_remaining r then
    (((r.data.getD (r.pos / 8) 0) >>> (7 - r.pos % 8)) &&& 1 == 1,
     { r with pos := r.pos + 1 })
  else
    (false, r)

/-- The `for` loop of `EventsReader::read_fixed`:
`result = result << 1 | read_bool()` executed `n` times. -/
def read_fixed_go : Nat → Nat → EventsReader → Nat × EventsReader
  | 0, acc, r => (acc, r)
  | n + 1, acc, r =>
    let p := read_bool r
    read_fixed_go n (acc <<< 1 ||| (if p.1 then 1 else 0)) p.2

/-- `EventsReader::read_fixed`. -/
def read_fixed (n : Nat) (r : EventsReader) : Nat × EventsReader :=
  read_fixed_go n 0 r

/-- The `while read_bool()` loop of `EventsReader::read_tally`, on fuel.
A `true` read always advances the cursor, so `8 * data.length + 1 - pos`
fuel never runs out before the loop exits (with zero fuel the cursor is
already past the end, where `read_bool` returns `false` and the loop would
stop anyway). -/
def read_tally_go : Nat → EventsReader → Nat × EventsReader
  | 0, r => (0, r)
  | fuel + 1, r =>
    let p := read_bool r
    if p.1 then
      let q := read_tally_go fuel p.2
      (q.1 + 1, q.2)
    else
      (0, p.2)

/-- `EventsReader::read_tally`: counts consecutive `1` bits, consuming the
terminating `0`. -/
def read_tally (r : EventsReader) : Nat × EventsReader :=
  read_tally_go (8 * r.data.length + 1 - r.pos) r

/-- The `while free < size` loop of `EventsReader::read_footer`, summing
`1 << free` while stepping `free` by 8; `free` grows by 8 each round so
`size` rounds of fuel are always enough. -/
def footer_min_go : Nat → Nat → Nat → Nat
  | 0, _, _ => 0
  | fuel + 1, free, size =>
    if free < size then (1 <<< free) + footer_min_go fuel (free + 8) size
    else 0

/-- The `minimum` accumulated by `EventsReader::read_footer` for a given
`free` and `size`. -/
def footer_min (free size : Nat) : Nat := footer_min_go size free size

/-- `EventsReader::read_footer`: byte-alignment-aware variable-length
unsigned integer. -/
def read_footer (r : EventsReader) : Nat × EventsReader :=
  let p := read_fixed 2 r
  let free := (8 - p.2.pos % 8) % 8
  let size := (p.1 <<< 3) ||| free
  let q := read_fixed size p.2
  (q.1 + footer_min free size, q.2)

/-- `Flag::from_usize` (via `num_derive::FromPrimitive`); only arguments
1..4 are reachable from `player_events` (`1 + read_fixed(2)`). -/
def flag_from_usize : Nat → Flag
  | 1 => .opponent
  | 2 => .opponentPotato
  | 3 => .neutral
  | 4 => .neutralPotato
  | 5 => .temporary
  | _ => .none

/-- The fields decoded for one tick by `EventsReader::player_events`
(lines 195-239 of `src/events_reader.rs`), in read order. -/
structure TickFields where
  new_team : Team
  pop_occurred : Bool
  num_returns : Nat
  num_tags : Nat
  grab_occurred : Bool
  num_captures : Nat
  flag_kept : Bool
  new_flag : Flag
  num_new_powerups : Nat
  powerups_gained : Nat
  powerups_lost : Nat
  toggle_preventing : Bool
  toggle_buttoning : Bool
  toggle_blocking : Bool
  dt : Nat
deriving Repr

/-- The powerup read loop of `player_events` (`while i < 16 { .. i <<= 1 }`,
i.e. `i` ranges over `[1, 2, 4, 8]`): for a held bit read a "lost" flag, for
a free bit read a "gained" flag while new powerups remain.
Returns `(reader, num_new_powerups left, gained, lost)`. -/
def pup_read_go : List Nat → EventsReader → Nat → Nat → Nat → Nat →
    EventsReader × Nat × Nat × Nat
  | [], r, _, nnp, gained, lost => (r, nnp, gained, lost)
  | i :: rest, r, pups, nnp, gained, lost =>
    if pups &&& i ≠ 0 then
      let p := read_bool r
      pup_read_go rest p.2 pups nnp gained (if p.1 then lost ||| i else lost)
    else if nnp ≠ 0 then
      let p := read_bool r
      if p.1 then pup_read_go rest p.2 pups (nnp - 1) (gained ||| i) lost
      else pup_read_go rest p.2 pups nnp gained lost
    else
      pup_read_go rest r pups nnp gained lost

/-- The optional team-change read of one tick (lines 195-203): a change bit
and, when set, a direction bit disambiguating the new team. -/
def read_team_change (r : EventsReader) (team : Team) : Team × EventsReader :=
  let ptc := read_bool r
  if ptc.1 then
    let pd := read_bool ptc.2
    (match team, pd.1 with
      | .none, false => .red
      | .none, true => .blue
      | .red, false => .blue
      | .blue, false => .red
      | _, _ => .none, pd.2)
  else (team, ptc.2)

/-- The conditional grab bit (line 208): only read while no flag is
carried. -/
def read_grab_bit (r : EventsReader) (flag : Flag) : Bool × EventsReader :=
  if flag = Flag.none then read_bool r else (false, r)

/-- The short-circuit evaluation of `flag_kept` (lines 211-212): the
trailing `read_bool` runs only when every earlier disjunct fails. -/
def read_flag_kept (r : EventsReader) (pop : Bool) (new_team : Team)
    (ncaps : Nat) (flag : Flag) (grab : Bool) : Bool × EventsReader :=
  if pop then (false, r)
  else if new_team = Team.none then (false, r)
  else if ncaps = 0 then (true, r)
  else if flag = Flag.none ∧ grab = false then (true, r)
  else read_bool r

/-- The `new_flag` computation (lines 213-218): a 2-bit flag variant is
read only on a grab with the flag kept. -/
def read_new_flag (r : EventsReader) (grab kept : Bool) (flag : Flag) :
    Flag × EventsReader :=
  if grab then
    if kept then
      let pfv := read_fixed 2 r
      (flag_from_usize (1 + pfv.1), pfv.2)
    else (Flag.temporary, r)
  else (flag, r)

/-- The read phase of one tick of `player_events` (lines 195-239), in the
exact field order of the source. -/
def read_tick_fields (r : EventsReader) (team : Team) (flag : Flag)
    (powerups : Nat) : TickFields × EventsReader :=
  let pnt := read_team_change r team
  let new_team := pnt.1
  let ppop := read_bool pnt.2
  let pret := read_tally ppop.2
  let ptag := read_tally pret.2
  let pgrab := read_grab_bit ptag.2 flag
  let pcap := read_tally pgrab.2
  let pkept := read_flag_kept pcap.2 ppop.1 new_team pcap.1 flag pgrab.1
  let pflag := read_new_flag pkept.2 pgrab.1 pkept.1 flag
  let pnnp := read_tally pflag.2
  let ppr := pup_read_go [1, 2, 4, 8] pnnp.2 powerups pnnp.1 0 0
  let pprev := read_bool ppr.1
  let pbut := read_bool pprev.2
  let pblock := read_bool pbut.2
  let pdt := read_footer pblock.2
  ({ new_team := new_team, pop_occurred := ppop.1, num_returns := pret.1,
     num_tags := ptag.1, grab_occurred := pgrab.1, num_captures := pcap.1,
     flag_kept := pkept.1, new_flag := pflag.1, num_new_powerups := ppr.2.1,
     powerups_gained := ppr.2.2.1, powerups_lost := ppr.2.2.2,
     toggle_preventing := pprev.1, toggle_buttoning := pbut.1,
     toggle_blocking := pblock.1, dt := pdt.1 }, pdt.2)

/-- The capture emission loop of `player_events` (lines 255-264): each
pending capture emits `FlaglessCapture` if the flag is kept or no flag is
held, otherwise `Capture`, which clears the carried flag and sets
`flag_kept` for the rest of the tally.  Returns the events and the final
flag. -/
def capture_events (n : Nat) (flag_kept : Bool) (flag : Flag) (time pups : Nat)
    (team : Team) : List PlayerEvent × Flag :=
  match n with
  | 0 => ([], flag)
  | m + 1 =>
    if flag_kept = true ∨ flag = Flag.none then
      let rest := capture_events m flag_kept flag time pups team
      (⟨.flaglessCapture, time, flag, pups, team⟩ :: rest.1, rest.2)
    else
      let rest := capture_events m true Flag.none time pups team
      (⟨.capture, time, flag, pups, team⟩ :: rest.1, rest.2)

/-- The powerup emission loop of `player_events` (lines 266-276), over the
same bit list `[1, 2, 4, 8]`: a lost bit is cleared (`^=`) and emits
`Powerdown`, a gained bit is set (`|=`) and emits `Powerup`, each event
carrying the updated bitmask.  Returns the events and the final bitmask. -/
def pup_emit_go : List Nat → Nat → Nat → Nat → Nat → Team → Flag →
    List PlayerEvent × Nat
  | [], pups, _, _, _, _, _ => ([], pups)
  | i :: rest, pups, lost, gained, time, team, flag =>
    if lost &&& i ≠ 0 then
      let pups' := pups ^^^ i
      let q := pup_emit_go rest pups' lost gained time team flag
      (⟨.powerdown, time, flag, pups', team⟩ :: q.1, q.2)
    else if gained &&& i ≠ 0 then
      let pups' := pups ||| i
      let q := pup_emit_go rest pups' lost gained time team flag
      (⟨.powerup, time, flag, pups', team⟩ :: q.1, q.2)
    else
      pup_emit_go rest pups lost gained time team flag

/-- One toggle block of `player_events` (lines 281-301): if the toggle bit
was read, emit the stop event when currently active, else the start event,
and flip the state. -/
def toggle_events (tog cur : Bool) (startE stopE : Event) (time : Nat)
    (flag : Flag) (pups : Nat) (team : Team) : List PlayerEvent × Bool :=
  if tog then
    (if cur then [⟨stopE, time, flag, pups, team⟩]
     else [⟨startE, time, flag, pups, team⟩], !cur)
  else ([], cur)

/-- The per-player decoder state carried across ticks by `player_events`. -/
structure DecoderState where
  r : EventsReader
  team : Team
  time : Nat
  flag : Flag
  powerups : Nat
  preventing : Bool
  buttoning : Bool
  blocking : Bool
deriving Repr

/-- The emission phase of one tick of `player_events` (lines 241-323),
given the decoded fields `f` and the advanced reader `r2`: emit Join,
Returns, Tags, Grab, Captures, Powerdowns/Powerups, DuplicatePowerups, the
three toggle pairs, Drop/Pop, and Switch/Quit, in that order, updating the
decoder state exactly as the source does. -/
def emit_tick (f : TickFields) (r2 : EventsReader) (s : DecoderState) :
    List PlayerEvent × DecoderState :=
  let time := s.time + 1 + f.dt
  let teamJ := if s.team = Team.none ∧ f.new_team ≠ Team.none then f.new_team else s.team
  let joinEvs : List PlayerEvent :=
    if s.team = Team.none ∧ f.new_team ≠ Team.none then
      [⟨.join, time, s.flag, s.powerups, teamJ⟩]
    else []
  let retEvs := List.replicate f.num_returns
    (⟨.return_, time, s.flag, s.powerups, teamJ⟩ : PlayerEvent)
  let tagEvs := List.replicate f.num_tags
    (⟨.tag, time, s.flag, s.powerups, teamJ⟩ : PlayerEvent)
  let flagG := if f.grab_occurred then f.new_flag else s.flag
  let grabEvs : List PlayerEvent :=
    if f.grab_occurred then [⟨.grab, time, flagG, s.powerups, teamJ⟩] else []
  let caps := capture_events f.num_captures f.flag_kept flagG time s.powerups teamJ
  let flagC := caps.2
  let pupsE := pup_emit_go [1, 2, 4, 8] s.powerups f.powerups_lost
    f.powerups_gained time teamJ flagC
  let pupsAfter := pupsE.2
  let dupEvs := List.replicate f.num_new_powerups
    (⟨.duplicatePowerup, time, flagC, pupsAfter, teamJ⟩ : PlayerEvent)
  let prevT := toggle_events f.toggle_preventing s.preventing .startPrevent
    .stopPrevent time flagC pupsAfter teamJ
  let butT := toggle_events f.toggle_buttoning s.buttoning .startButton
    .stopButton time flagC pupsAfter teamJ
  let blockT := toggle_events f.toggle_blocking s.blocking .startBlock
    .stopBlock time flagC pupsAfter teamJ
  let popRes : List PlayerEvent × Flag :=
    if f.pop_occurred then
      if flagC ≠ Flag.none then ([⟨.drop, time, flagC, pupsAfter, teamJ⟩], Flag.none)
      else ([⟨.pop, time, flagC, pupsAfter, teamJ⟩], flagC)
    else ([], flagC)
  let flagP := popRes.2
  let teamRes : List PlayerEvent × Flag × Nat :=
    if f.new_team = teamJ then ([], flagP, pupsAfter)
    else if f.new_team = Team.none then
      ([⟨.quit, time, flagP, pupsAfter, teamJ⟩], Flag.none, 0)
    else
      ([⟨.switch, time, flagP, pupsAfter, teamJ⟩], Flag.none, pupsAfter)
  (joinEvs ++ retEvs ++ tagEvs ++ grabEvs ++ caps.1 ++ pupsE.1 ++ dupEvs ++
     prevT.1 ++ butT.1 ++ blockT.1 ++ popRes.1 ++ teamRes.1,
   { r := r2, team := teamJ, time := time, flag := teamRes.2.1,
     powerups := teamRes.2.2, preventing := prevT.2, buttoning := butT.2,
     blocking := blockT.2 })

/-- One full iteration of the `while events_remaining` loop of
`player_events` (lines 194-324): decode the tick's fields, then emit the
tick's events. -/
def player_tick (s : DecoderState) : List PlayerEvent × DecoderState :=
  let pf := read_tick_fields s.r s.team s.flag s.powerups
  emit_tick pf.1 pf.2 s

/-- The `while events_remaining` loop of `player_events`, on fuel; each
iteration consumes at least one bit, so `8 * data.length` fuel is provably
sufficient (see the termination theorem).  When the loop exits, the final
`End` event is appended at the supplied duration with the remaining
state. -/
def player_events_go : Nat → DecoderState → Nat → List PlayerEvent
  | 0, s, duration => [⟨.end_, duration, s.flag, s.powerups, s.team⟩]
  | fuel + 1, s, duration =>
    if events_remaining s.r then
      let p := player_tick s
      p.1 ++ player_events_go fuel p.2 duration
    else
      [⟨.end_, duration, s.flag, s.powerups, s.team⟩]

/-- `EventsReader::player_events` (lines 183-327): decode one player's whole
buffer from cursor position 0. -/
def player_events (data : List Nat) (team : Team) (duration : Nat) :
    List PlayerEvent :=
  player_events_go (8 * data.length)
    ⟨⟨data, 0⟩, team, 0, Flag.none, 0, false, false, false⟩ duration

/-! ## The fused timeline and `process_ranked_match` (`src/event_processor.rs`,
`src/analysis_types.rs`, `src/ranked_analysis.rs`) -/

/-- `RelevantEvent` from `src/analysis_types.rs`. -/
structure RelevantEvent where
  time : Nat
  event_type : Event
  player_index : Nat
  team : Team
deriving DecidableEq, Repr

instance : Inhabited RelevantEvent := ⟨⟨0, .join, 0, .none⟩⟩

/-- `Team::from_usize` (via `num_derive::FromPrimitive`). -/
def team_from_usize : Nat → Option Team
  | 0 => some .none
  | 1 => some .red
  | 2 => some .blue
  | _ => Option.none

/-- `RankedStatConfig::RELEVANT_EVENTS` from `src/ranked_analysis.rs`
(note: `Join` is not in this list). -/
def RELEVANT_EVENTS : List Event :=
  [.capture, .grab, .drop, .return_, .tag, .pop, .powerup, .duplicatePowerup,
   .startPrevent, .stopPrevent, .quit]

/-- `RankedPlayerStats` from `src/ranked_analysis.rs`. -/
structure RankedPlayerStats where
  name : String := ""
  auth : Nat := 0
  caps : Nat := 0
  garbage_time_caps : Nat := 0
  hold_start : Option Nat := Option.none
  hold : Nat := 0
  ndps : Nat := 0
  returns : Nat := 0
  quick_returns : Nat := 0
  nrts : Nat := 0
  pups : Nat := 0
  keypops : Nat := 0
  handoffs : Nat := 0
  goodprevent : Nat := 0
  resets : Nat := 0
  badflaccids : Nat := 0
  sparkedouts : Nat := 0
  prevent_start : Option Nat := Option.none
  prevent : Nat := 0
deriving DecidableEq, Repr

/-- The running state threaded through the replay loop of
`process_ranked_match` (`cap_diff`, `garbage_time_cap_diff`, the per-team
flag carriers and grab ticks) together with the per-player stat records. -/
structure EngineState where
  cap_diff : Int := 0
  garbage_time_cap_diff : Int := 0
  red_fc : Option Nat := Option.none
  blue_fc : Option Nat := Option.none
  red_grab_time : Option Nat := Option.none
  blue_grab_time : Option Nat := Option.none
  stats : List RankedPlayerStats := []
deriving DecidableEq, Repr

/-- Update the acting player's record (`&mut all_player_stats[i]`); an
out-of-range index is a Rust panic, which never happens in the pipeline
(every `player_index` comes from an enumeration of the players). -/
def update_stat (stats : List RankedPlayerStats) (i : Nat)
    (f : RankedPlayerStats → RankedPlayerStats) : List RankedPlayerStats :=
  match stats[i]? with
  | some s => stats.set i (f s)
  | Option.none => stats

/-- The `is_garbage_time` test of the `Event::Capture` arm (lines 67-69),
evaluated on the pre-capture differential. -/
def is_garbage_time (time : Nat) (cap_diff : Int) : Bool :=
  (decide (time > 330 * 60) && (decide (cap_diff ≥ 4) || decide (cap_diff ≤ -4)))
  || (decide (time > 360 * 60) && (decide (cap_diff ≥ 3) || decide (cap_diff ≤ -3)))
  || (decide (time > 390 * 60) && (decide (cap_diff ≥ 2) || decide (cap_diff ≤ -2)))

/-- The `Event::Capture` arm of `RankedStatConfig::process_event`
(lines 65-103). -/
def process_capture (e : RelevantEvent) (st : EngineState) : EngineState :=
  let st1 : EngineState :=
    match e.team with
    | .red =>
      let d := st.cap_diff + 1
      if is_garbage_time e.time st.cap_diff && decide (d > 0) then
        { st with
          cap_diff := d
          garbage_time_cap_diff := st.garbage_time_cap_diff + 1
          stats := update_stat st.stats e.player_index
            (fun s => { s with garbage_time_caps := s.garbage_time_caps + 1 }) }
      else { st with cap_diff := d }
    | .blue =>
      let d := st.cap_diff - 1
      if is_garbage_time e.time st.cap_diff && decide (d < 0) then
        { st with
          cap_diff := d
          garbage_time_cap_diff := st.garbage_time_cap_diff - 1
          stats := update_stat st.stats e.player_index
            (fun s => { s with garbage_time_caps := s.garbage_time_caps + 1 }) }
      else { st with cap_diff := d }
    | .none => st
  let capStats := update_stat st1.stats e.player_index
    (fun s => { s with caps := s.caps + 1, hold_start := Option.none })
  let st2 := { st1 with stats := capStats }
  match e.team with
  | .red => { st2 with red_fc := Option.none, red_grab_time := Option.none }
  | .blue => { st2 with blue_fc := Option.none, blue_grab_time := Option.none }
  | .none => st2

/-- The `Event::Grab` arm of `RankedStatConfig::process_event`
(lines 104-119). -/
def process_grab (e : RelevantEvent) (st : EngineState) : EngineState :=
  let grabStats := update_stat st.stats e.player_index
    (fun s => { s with hold_start := some e.time })
  let st1 := { st with stats := grabStats }
  match e.team with
  | .red => { st1 with red_fc := some e.player_index, red_grab_time := some e.time }
  | .blue => { st1 with blue_fc := some e.player_index, blue_grab_time := some e.time }
  | .none => st1

/-- The `Event::Drop` arm of `RankedStatConfig::process_event`
(lines 120-141). -/
def process_drop (e : RelevantEvent) (st : EngineState) : EngineState :=
  let dropStats := update_stat st.stats e.player_index
    (fun s => match s.hold_start with
      | some hs => { s with
          hold := s.hold + (e.time - hs)
          hold_start := Option.none }
      | Option.none => s)
  let st1 := { st with stats := dropStats }
  match e.team with
  | .red => { st1 with red_fc := Option.none, red_grab_time := Option.none }
  | .blue => { st1 with blue_fc := Option.none, blue_grab_time := Option.none }
  | .none => st1

/-- The `Event::Quit` arm of `RankedStatConfig::process_event`
(lines 167-177): close an open hold and count the quit like a pop. -/
def process_quit (e : RelevantEvent) (st : EngineState) : EngineState :=
  let s2 := update_stat st.stats e.player_index
    (fun s =>
      let s1 := match s.hold_start with
        | some hs => { s with
            hold := s.hold + (e.time - hs)
            hold_start := Option.none }
        | Option.none => s
      { s1 with ndps := s1.ndps + 1 })
  { st with stats := s2 }

/-- `RankedStatConfig::process_event` from `src/ranked_analysis.rs`
(lines 52-180). -/
def process_event (e : RelevantEvent) (st : EngineState) : EngineState :=
  match e.event_type with
  | .capture => process_capture e st
  | .grab => process_grab e st
  | .drop => process_drop e st
  | .return_ =>
    let s2 := update_stat st.stats e.player_index
      (fun s => { s with returns := s.returns + 1 })
    { st with stats := s2 }
  | .tag =>
    let s2 := update_stat st.stats e.player_index
      (fun s => { s with nrts := s.nrts + 1 })
    { st with stats := s2 }
  | .pop =>
    let s2 := update_stat st.stats e.player_index
      (fun s => { s with ndps := s.ndps + 1 })
    { st with stats := s2 }
  | .powerup =>
    let s2 := update_stat st.stats e.player_index
      (fun s => { s with pups := s.pups + 1 })
    { st with stats := s2 }
  | .duplicatePowerup =>
    let s2 := update_stat st.stats e.player_index
      (fun s => { s with pups := s.pups + 1 })
    { st with stats := s2 }
  | .startPrevent =>
    let s2 := update_stat st.stats e.player_index
      (fun s => { s with prevent_start := some e.time })
    { st with stats := s2 }
  | .stopPrevent =>
    let s2 := update_stat st.stats e.player_index
      (fun s => match s.prevent_start with
        | some ps => { s with
            prevent := s.prevent + (e.time - ps)
            prevent_start := Option.none }
        | Option.none => s)
    { st with stats := s2 }
  | .quit => process_quit e st
  | _ => st

/-- One player's record in the match log: its starting team enumerant (raw
`usize`) and its byte buffer (the base64-decoded `events` string). -/
structure PlayerLog where
  team : Nat
  events : List Nat
  name : String := ""
deriving Repr

/-- The fields of `MatchLog` (`src/log_reader.rs`) consumed by
`process_ranked_match`.  `time_limit` is an `f64` in the source; it is only
ever compared for exact equality with the constant `8.0`, which is exactly
representable, so it is embedded as a rational. -/
structure MatchLog where
  official : Bool
  players : List PlayerLog
  group : Option String
  time_limit : Rat
  duration : Nat
  date : Nat := 0
  map_id : Nat := 0
deriving Repr

/-- `MINIMUM_RANKED_MATCH_LENGTH` from `src/event_processor.rs`. -/
def MINIMUM_RANKED_MATCH_LENGTH : Nat := 180 * 60

/-- The eligibility pre-filter of `process_ranked_match` (lines 12-19):
`true` exactly when the early `return None` is not taken. -/
def prefilter_pass (log : MatchLog) : Bool :=
  log.official && decide (log.players.length ≥ 8) && log.group == some ""
    && log.time_limit == 8 && decide (log.duration ≥ MINIMUM_RANKED_MATCH_LENGTH)

/-- The per-player collection phase of `process_ranked_match` (lines 30-59):
initial rosters from the starting team enumerants, and the concatenation (in
player enumeration order, each player's decoded events in emission order) of
every event whose kind is in `RELEVANT_EVENTS`.  `Except.error` models the
`expect` panic on an unparseable team enumerant. -/
structure CollectResult where
  events : List RelevantEvent
  red_team : List Nat
  blue_team : List Nat
deriving DecidableEq, Repr

def collect_go (log : MatchLog) : Nat → List PlayerLog → Except Unit CollectResult
  | _, [] => .ok ⟨[], [], []⟩
  | i, p :: rest =>
    match team_from_usize p.team with
    | Option.none => .error ()
    | some t =>
      let evs := (player_events p.events t log.duration).filterMap
        (fun ev => if ev.event_type ∈ RELEVANT_EVENTS then
          some (⟨ev.time, ev.event_type, i, ev.team⟩ : RelevantEvent)
         else Option.none)
      match collect_go log (i + 1) rest with
      | .error () => .error ()
      | .ok c =>
        .ok ⟨evs ++ c.events,
          (if t = Team.red then [i] else []) ++ c.red_team,
          (if t = Team.blue then [i] else []) ++ c.blue_team⟩

def collect_relevant (log : MatchLog) : Except Unit CollectResult :=
  collect_go log 0 log.players

/-- The contract of `relevant_events.sort_unstable_by_key(|x| x.time)`
(line 62): the output is a permutation of the input, sorted by `time`.
`sort_unstable_by_key` guarantees nothing about the relative order of
events with equal keys, so the fused timeline is any list satisfying this
relation. -/
def sort_by_time_admissible (input output : List RelevantEvent) : Prop :=
  output.Perm input ∧ output.Pairwise (fun a b => a.time ≤ b.time)

/-- The claim's tie-break discipline, written from the spec's words: some
order-preserving bijection matches the timeline with the pre-sort list
(player enumeration order, then per-player emission order), and events with
equal ticks keep that source order. -/
def ties_keep_source_order (input output : List RelevantEvent) : Prop :=
  ∃ f : Fin output.length → Fin input.length, Function.Bijective f ∧
    (∀ k, output.get k = input.get (f k)) ∧
    ∀ j k : Fin output.length, j < k →
      (output.get j).time = (output.get k).time → f j < f k

/-- The state of the replay loop of `process_ranked_match` (lines 64-111):
the two rosters plus the engine state. -/
structure ReplayState where
  red_team : List Nat
  blue_team : List Nat
  engine : EngineState
deriving DecidableEq, Repr

/-- One iteration of the replay loop (lines 72-111): Join adds an
un-rostered player to their event's team, Quit removes an early quitter,
then `RankedStatConfig::process_event` runs. -/
def replay_step (duration : Nat) (st : ReplayState) (e : RelevantEvent) :
    ReplayState :=
  let st1 : ReplayState :=
    match e.event_type with
    | .join =>
      if e.player_index ∉ st.red_team ∧ e.player_index ∉ st.blue_team then
        match e.team with
        | .red => { st with red_team := st.red_team ++ [e.player_index] }
        | .blue => { st with blue_team := st.blue_team ++ [e.player_index] }
        | .none => st
      else st
    | .quit =>
      if e.time < duration - MINIMUM_RANKED_MATCH_LENGTH then
        match e.team with
        | .red => { st with red_team := st.red_team.filter (fun x => x ≠ e.player_index) }
        | .blue => { st with blue_team := st.blue_team.filter (fun x => x ≠ e.player_index) }
        | .none => st
      else st
    | _ => st
  { st1 with engine := process_event e st1.engine }

def replay_timeline (duration : Nat) (timeline : List RelevantEvent)
    (init : ReplayState) : ReplayState :=
  timeline.foldl (replay_step duration) init

/-- The result record built by `process_ranked_match` (the fields of
`MatchResult` it fills in). -/
structure MatchResultR where
  timestamp : Nat
  map_id : Nat
  duration : Nat
  cap_diff : Int
  garbage_time_cap_diff : Int
  red_team : List Nat
  blue_team : List Nat
  player_stats : List RankedPlayerStats
deriving DecidableEq, Repr

/-- The post-sort phase of `process_ranked_match` (lines 64-135): replay the
fused timeline from the collected rosters and fresh per-player records, then
return a result exactly when both rosters have exactly 4 members
(lines 113-134), and `None` otherwise. -/
def process_post (log : MatchLog) (col : CollectResult)
    (timeline : List RelevantEvent) : Option MatchResultR :=
  let init : ReplayState :=
    ⟨col.red_team, col.blue_team,
      { stats := List.replicate log.players.length {} }⟩
  let fin := replay_timeline log.duration timeline init
  if fin.red_team.length = 4 ∧ fin.blue_team.length = 4 then
    some ⟨log.date, log.map_id, log.duration, fin.engine.cap_diff,
      fin.engine.garbage_time_cap_diff, fin.red_team, fin.blue_team,
      fin.engine.stats⟩
  else Option.none

/-- `process_ranked_match::<RankedStatConfig>` as a relation: the pre-filter
short-circuits to `None`; otherwise the collection phase may panic
(`Except.error`), and the timeline is any output admitted by
`sort_unstable_by_key` on the collected events. -/
def process_ranked_match (log : MatchLog) (out : Except Unit (Option MatchResultR)) :
    Prop :=
  (prefilter_pass log = false ∧ out = .ok Option.none) ∨
  (prefilter_pass log = true ∧
    ((collect_relevant log = .error () ∧ out = .error ()) ∨
     (∃ col timeline, collect_relevant log = .ok col ∧
        sort_by_time_admissible col.events timeline ∧
        out = .ok (process_post log col timeline))))

/-! ## The records pipeline (`src/records.rs`) -/

/-- `PlayerGameStats` from `src/records.rs`. -/
structure PlayerGameStats where
  caps : Nat := 0
  returns : Nat := 0
  tags : Nat := 0
  pops : Nat := 0
  grabs : Nat := 0
  pups : Nat := 0
  quick_returns : Nat := 0
  flaccid_grabs : Nat := 0
  hold : Nat := 0
  prevent : Nat := 0
  button : Nat := 0
  hold_start : Option Nat := Option.none
  prevent_start : Option Nat := Option.none
  button_start : Option Nat := Option.none
  last_grab_time : Option Nat := Option.none
deriving DecidableEq, Repr

/-- Close an open interval the way `process_event_static` does everywhere:
add `min(time, cutoff) - start` when the interval started before the
cutoff. -/
def close_interval (start : Option Nat) (acc time cutoff : Nat) :
    Nat × Option Nat :=
  match start with
  | some s =>
    (if s < cutoff then acc + (min time cutoff - s) else acc, Option.none)
  | Option.none => (acc, Option.none)

/-- The `Event::Drop` arm of `RecordsCollector::process_event_static`
(lines 973-995): counts the drop as a pop, closes the open hold, checks for
a flaccid grab, and clears the team's grab time. -/
def records_drop (time : Nat) (stats : PlayerGameStats)
    (red_grab_time blue_grab_time : Option Nat) (team : Team) (cutoff : Nat) :
    PlayerGameStats × Option Nat × Option Nat :=
  let stats1 := { stats with pops := stats.pops + 1 }
  let hc := close_interval stats1.hold_start stats1.hold time cutoff
  let stats2 := { stats1 with hold := hc.1, hold_start := hc.2 }
  let stats3 :=
    match stats2.last_grab_time with
    | some gt =>
      if time > gt ∧ time - gt < 2 * 60 then
        { stats2 with flaccid_grabs := stats2.flaccid_grabs + 1 }
      else stats2
    | Option.none => stats2
  match team with
  | .red => (stats3, Option.none, blue_grab_time)
  | .blue => (stats3, red_grab_time, Option.none)
  | .none => (stats3, red_grab_time, blue_grab_time)

/-- `RecordsCollector::process_event_static` from `src/records.rs`
(lines 929-1070).  Returns the updated stats record and the updated
`red_grab_time` / `blue_grab_time`. -/
def process_event_static (event_type : Event) (time : Nat)
    (stats : PlayerGameStats) (red_grab_time blue_grab_time : Option Nat)
    (team : Team) (cutoff : Nat) :
    PlayerGameStats × Option Nat × Option Nat :=
  if time > cutoff then (stats, red_grab_time, blue_grab_time)
  else
    match event_type with
    | .capture =>
      let stats1 := { stats with caps := stats.caps + 1 }
      let hc := close_interval stats1.hold_start stats1.hold time cutoff
      let stats2 := { stats1 with hold := hc.1, hold_start := hc.2 }
      (match team with
       | .red => (stats2, Option.none, blue_grab_time)
       | .blue => (stats2, red_grab_time, Option.none)
       | .none => (stats2, red_grab_time, blue_grab_time))
    | .grab =>
      let stats1 := { stats with
        grabs := stats.grabs + 1
        hold_start := some time
        last_grab_time := some time }
      (match team with
       | .red => (stats1, some time, blue_grab_time)
       | .blue => (stats1, red_grab_time, some time)
       | .none => (stats1, red_grab_time, blue_grab_time))
    | .drop => records_drop time stats red_grab_time blue_grab_time team cutoff
    | .return_ =>
      let stats1 := { stats with
        returns := stats.returns + 1
        tags := stats.tags + 1 }
      let oppo := match team with
        | .red => blue_grab_time
        | .blue => red_grab_time
        | .none => Option.none
      let stats2 := match oppo with
        | some gt =>
          if time > gt ∧ time - gt < 2 * 60 then
            { stats1 with quick_returns := stats1.quick_returns + 1 }
          else stats1
        | Option.none => stats1
      (stats2, red_grab_time, blue_grab_time)
    | .tag => ({ stats with tags := stats.tags + 1 }, red_grab_time, blue_grab_time)
    | .pop => ({ stats with pops := stats.pops + 1 }, red_grab_time, blue_grab_time)
    | .powerup => ({ stats with pups := stats.pups + 1 }, red_grab_time, blue_grab_time)
    | .duplicatePowerup =>
      ({ stats with pups := stats.pups + 1 }, red_grab_time, blue_grab_time)
    | .startPrevent =>
      ({ stats with prevent_start := some time }, red_grab_time, blue_grab_time)
    | .stopPrevent =>
      let pc := close_interval stats.prevent_start stats.prevent time cutoff
      ({ stats with prevent := pc.1, prevent_start := pc.2 },
       red_grab_time, blue_grab_time)
    | .startButton =>
      ({ stats with button_start := some time }, red_grab_time, blue_grab_time)
    | .stopButton =>
      let bc := close_interval stats.button_start stats.button time cutoff
      ({ stats with button := bc.1, button_start := bc.2 },
       red_grab_time, blue_grab_time)
    | .quit =>
      let hc := close_interval stats.hold_start stats.hold time cutoff
      let stats1 := { stats with hold := hc.1, hold_start := hc.2 }
      let pc := close_interval stats1.prevent_start stats1.prevent time cutoff
      let stats2 := { stats1 with prevent := pc.1, prevent_start := pc.2 }
      let bc := close_interval stats2.button_start stats2.button time cutoff
      let stats3 := { stats2 with button := bc.1, button_start := bc.2 }
      (stats3, red_grab_time, blue_grab_time)
    | _ => (stats, red_grab_time, blue_grab_time)

/-! ## The reset scanner (`RankedStatConfig::process_resets`,
`src/ranked_analysis.rs` lines 344-395) -/

/-- The interruption test of the inner hold scan: a `Grab`, `Capture` or
`Drop` by someone other than the grab's holder. -/
def interrupts (grab_player : Nat) (e : RelevantEvent) : Bool :=
  (e.event_type == Event.grab || e.event_type == Event.capture
    || e.event_type == Event.drop) && e.player_index != grab_player

/-- The inner `k`-loop (lines 371-382): scanning forward from just after the
opposing grab, report a sustained hold as soon as an event at
`grab_time + 300` or later is reached, stopping early at an interruption by
someone else. -/
def hold_reaches (grab_time grab_player : Nat) : List RelevantEvent → Bool
  | [] => false
  | e :: rest =>
    if grab_time + 5 * 60 ≤ e.time then true
    else if interrupts grab_player e then false
    else hold_reaches grab_time grab_player rest

/-- The outer `j`-loop (lines 360-388): scan forward from just after the
return, while `time ≤ return_time + 300`, for an opposing `Grab` whose
holder sustains a 5-second hold. -/
def scan_grabs (return_time : Nat) (opponents : List Nat) :
    List RelevantEvent → Bool
  | [] => false
  | e :: rest =>
    if return_time + 5 * 60 < e.time then false
    else if e.event_type == Event.grab && e.player_index ∈ opponents then
      (hold_reaches e.time e.player_index rest || scan_grabs return_time opponents rest)
    else scan_grabs return_time opponents rest

/-- The list of players credited with a reset by `process_resets`, one entry
per qualifying `Return` event, in timeline order. -/
def resets_credits (red_team blue_team : List Nat) :
    List RelevantEvent → List Nat
  | [] => []
  | e :: rest =>
    (if e.event_type == Event.return_ &&
        !scan_grabs e.time (if e.team == Team.red then blue_team else red_team) rest
     then [e.player_index] else [])
      ++ resets_credits red_team blue_team rest

/-- `RankedStatConfig::process_resets`: bump `resets` for each credited
return, in timeline order. -/
def process_resets (all_events : List RelevantEvent)
    (stats : List RankedPlayerStats) (red_team blue_team : List Nat) :
    List RankedPlayerStats :=
  (resets_credits red_team blue_team all_events).foldl
    (fun acc p => update_stat acc p (fun s => { s with resets := s.resets + 1 }))
    stats

/-- The credits contributed by a prefix `l1` of the timeline whose
continuation is `ctx`: each return in `l1` scans the remainder of `l1`
followed by all of `ctx` (so that
`resets_credits (l1 ++ l2) = resets_credits_pre l1 l2 ++ resets_credits l2`). -/
def resets_credits_pre (red_team blue_team : List Nat) :
    List RelevantEvent → List RelevantEvent → List Nat
  | [], _ => []
  | e :: rest, ctx =>
    (if e.event_type == Event.return_ &&
        !scan_grabs e.time (if e.team == Team.red then blue_team else red_team)
          (rest ++ ctx)
     then [e.player_index] else [])
      ++ resets_credits_pre red_team blue_team rest ctx

/-- The claim's notion of a sustained hold, stated over the events after the
grab: some later event occurs at `grab_time + 300` or beyond, and no earlier
event in between is a `Grab`, `Capture` or `Drop` by someone other than the
grabber (the code detects a 5-second hold through exactly such a witnessing
event). -/
def claim_sustained (grab_time grab_player : Nat)
    (l : List RelevantEvent) : Prop :=
  ∃ k, k < l.length ∧ grab_time + 5 * 60 ≤ (l.getD k default).time ∧
    ∀ m, m < k → interrupts grab_player (l.getD m default) = false

/-- The claim's blocking condition for a return at `return_time`, stated
over the events after the return: some opposing `Grab` occurs at a tick
`≤ return_time + 300` and is followed by a sustained hold. -/
def opposing_sustained_grab (return_time : Nat) (opponents : List Nat)
    (l : List RelevantEvent) : Prop :=
  ∃ j, j < l.length ∧ (l.getD j default).time ≤ return_time + 5 * 60 ∧
    (l.getD j default).event_type = Event.grab ∧
    (l.getD j default).player_index ∈ opponents ∧
    claim_sustained (l.getD j default).time (l.getD j default).player_index
      (l.drop (j + 1))

instance (gt gp : Nat) (l : List RelevantEvent) :
    Decidable (claim_sustained gt gp l) :=
  decidable_of_iff
    (∃ k : Fin l.length, gt + 5 * 60 ≤ (l.getD k.val default).time ∧
      ∀ m : Fin l.length, m.val < k.val →
        interrupts gp (l.getD m.val default) = false)
    (by
      constructor
      · rintro ⟨k, h1, h2⟩
        exact ⟨k.val, k.isLt, h1, fun m hm => h2 ⟨m, hm.trans k.isLt⟩ hm⟩
      · rintro ⟨k, hk, h1, h2⟩
        exact ⟨⟨k, hk⟩, h1, fun m hm => h2 m.val hm⟩)

instance (rt : Nat) (opp : List Nat) (l : List RelevantEvent) :
    Decidable (opposing_sustained_grab rt opp l) :=
  decidable_of_iff
    (∃ j : Fin l.length, (l.getD j.val default).time ≤ rt + 5 * 60 ∧
      (l.getD j.val default).event_type = Event.grab ∧
      (l.getD j.val default).player_index ∈ opp ∧
      claim_sustained (l.getD j.val default).time
        (l.getD j.val default).player_index (l.drop (j.val + 1)))
    (by
      constructor
      · rintro ⟨j, h⟩
        exact ⟨j.val, j.isLt, h⟩
      · rintro ⟨j, hj, h⟩
        exact ⟨⟨j, hj⟩, h⟩)

/-! ## Scanning predicates used to state the flag invariant (claim C6) -/

/-- Walk one player's stream tracking whether a `Grab` is "armed" (a grab
seen with no clearing event since); `scan_grab_ok` is `false` exactly when
two `Grab`s occur with no event from `clearing` between them. -/
def armed_after (clearing : List Event) : Bool → List PlayerEvent → Bool
  | armed, [] => armed
  | armed, e :: rest =>
    if e.event_type == Event.grab then armed_after clearing true rest
    else if e.event_type ∈ clearing then armed_after clearing false rest
    else armed_after clearing armed rest

def scan_grab_ok (clearing : List Event) : Bool → List PlayerEvent → Bool
  | _, [] => true
  | armed, e :: rest =>
    if e.event_type == Event.grab then
      !armed && scan_grab_ok clearing true rest
    else if e.event_type ∈ clearing then scan_grab_ok clearing false rest
    else scan_grab_ok clearing armed rest

/-- The claim's clearing set: Drop, Capture, FlaglessCapture, Pop. -/
def clearing_claimed : List Event := [.drop, .capture, .flaglessCapture, .pop]

/-- The clearing set that actually restores `flag = None` in the decoder:
Drop, Capture, Switch and Quit (FlaglessCapture and Pop never do). -/
def clearing_actual : List Event :=
  [.drop, .capture, .flaglessCapture, .pop, .switch, .quit]


/-! ## Basic reader lemmas -/

theorem read_fixed_go_lt (n : Nat) : ∀ (acc k : Nat) (r : EventsReader),
    acc < 2 ^ k → (read_fixed_go n acc r).1 < 2 ^ (k + n) := by
  induction n with
  | zero => intro acc k r h; simpa using h
  | succ n ih =>
    intro acc k r h
    have hb : (if (read_bool r).1 then 1 else 0) < 2 ^ (k + 1) := by
      have : (1 : Nat) < 2 ^ (k + 1) := by
        have : (2 : Nat) ≤ 2 ^ (k + 1) := by
          calc (2 : Nat) = 2 ^ 1 := rfl
          _ ≤ 2 ^ (k + 1) := Nat.pow_le_pow_right (by omega) (by omega)
        omega
      split <;> omega
    have hsh : acc <<< 1 < 2 ^ (k + 1) := by
      rw [Nat.shiftLeft_eq]
      have : acc * 2 ^ 1 < 2 ^ k * 2 ^ 1 := by
        have h0 : (0 : Nat) < 2 ^ 1 := by omega
        exact (Nat.mul_lt_mul_right h0).mpr h
      calc acc * 2 ^ 1 < 2 ^ k * 2 ^ 1 := this
      _ = 2 ^ (k + 1) := (Nat.pow_add 2 k 1).symm
    have hor := Nat.or_lt_two_pow hsh hb
    have := ih (acc <<< 1 ||| (if (read_bool r).1 then 1 else 0)) (k + 1)
      (read_bool r).2 hor
    simp only [read_fixed_go]
    have hkn : k + 1 + n = k + (n + 1) := by omega
    rw [hkn] at this
    exact this

theorem read_fixed_lt (n : Nat) (r : EventsReader) :
    (read_fixed n r).1 < 2 ^ n := by
  have := read_fixed_go_lt n 0 0 r (by norm_num)
  simpa [read_fixed] using this

/-- The minimum value of the footer range with selector `s` at alignment
`free`. -/
def footer_lo (s free : Nat) : Nat := footer_min free ((s <<< 3) ||| free)

/-- The maximum value of the footer range with selector `s` at alignment
`free`. -/
def footer_hi (s free : Nat) : Nat :=
  footer_lo s free + 2 ^ ((s <<< 3) ||| free) - 1

/-- The 2-bit size selector consumed by `read_footer` at cursor `r`. -/
def footer_selector (r : EventsReader) : Nat := (read_fixed 2 r).1

/-- The `free` alignment computed by `read_footer` at cursor `r` (bits to
the next byte boundary after the selector). -/
def footer_free (r : EventsReader) : Nat :=
  (8 - (read_fixed 2 r).2.pos % 8) % 8

/-- C1: for every byte buffer and cursor position, the value decoded by
`read_footer` lies in the range `[footer_lo s free, footer_hi s free]` of
its 2-bit size selector `s` at its byte alignment `free`, and for each
selector `s ≥ 1` the minimum of the range at selector `s` is strictly
greater than (in fact exactly one more than) the maximum of the range at
selector `s - 1` at the same alignment: the four ranges are disjoint and
contiguous. -/
theorem footer_ranges_disjoint :
    (∀ r : EventsReader,
      footer_lo (footer_selector r) (footer_free r) ≤ (read_footer r).1 ∧
      (read_footer r).1 ≤ footer_hi (footer_selector r) (footer_free r)) ∧
    (∀ free s : Nat, free < 8 → 1 ≤ s → s ≤ 3 →
      footer_hi (s - 1) free < footer_lo s free ∧
      footer_lo s free = footer_hi (s - 1) free + 1) := by
  constructor
  · intro r
    have hlt := read_fixed_lt ((footer_selector r <<< 3) ||| footer_free r)
      (read_fixed 2 r).2
    have hpow : 1 ≤ 2 ^ ((footer_selector r <<< 3) ||| footer_free r) :=
      Nat.one_le_two_pow
    simp only [footer_selector, footer_free] at hlt hpow
    simp only [read_footer, footer_lo, footer_hi, footer_selector, footer_free]
    constructor
    · omega
    · omega
  · intro free s hfree h1 h3
    interval_cases free <;> interval_cases s <;> constructor <;> decide

/-- Witness for C1 at alignment `free = 2`, selector `s = 1`: the range
minimum `4` of selector 1 exceeds the range maximum `3` of selector 0. -/
theorem footer_ranges_disjoint_witness :
    footer_hi 0 2 < footer_lo 1 2 ∧ footer_lo 1 2 = footer_hi 0 2 + 1 :=
  footer_ranges_disjoint.2 2 1 (by norm_num) (by norm_num) (by norm_num)


/-! ## Engine lemmas (claim C4) -/

theorem update_stat_at (stats : List RankedPlayerStats) (i : Nat)
    (f : RankedPlayerStats → RankedPlayerStats) (s : RankedPlayerStats)
    (h : stats[i]? = some s) : (update_stat stats i f)[i]? = some (f s) := by
  have hi : i < stats.length := (List.getElem?_eq_some_iff.mp h).choose
  simp only [update_stat, h]
  simp [List.getElem?_set_self, hi]

/-- The Red branch of `process_capture` when the garbage-time test and the
post-capture sign check pass. -/
theorem process_capture_red_g (e : RelevantEvent) (st : EngineState)
    (ht : e.team = Team.red)
    (hg : (is_garbage_time e.time st.cap_diff && decide (st.cap_diff + 1 > 0)) = true) :
    process_capture e st = { st with
      cap_diff := st.cap_diff + 1
      garbage_time_cap_diff := st.garbage_time_cap_diff + 1
      stats := update_stat (update_stat st.stats e.player_index
          (fun s => { s with garbage_time_caps := s.garbage_time_caps + 1 }))
        e.player_index (fun s => { s with caps := s.caps + 1, hold_start := Option.none })
      red_fc := Option.none
      red_grab_time := Option.none } := by
  simp only [process_capture, ht, hg]
  simp

/-- The Red branch of `process_capture` when the garbage-time count is not
taken. -/
theorem process_capture_red_ng (e : RelevantEvent) (st : EngineState)
    (ht : e.team = Team.red)
    (hg : (is_garbage_time e.time st.cap_diff && decide (st.cap_diff + 1 > 0)) = false) :
    process_capture e st = { st with
      cap_diff := st.cap_diff + 1
      stats := update_stat st.stats e.player_index
        (fun s => { s with caps := s.caps + 1, hold_start := Option.none })
      red_fc := Option.none
      red_grab_time := Option.none } := by
  simp only [process_capture, ht, hg]
  simp

/-- The Blue branch of `process_capture` when the garbage-time test and the
post-capture sign check pass. -/
theorem process_capture_blue_g (e : RelevantEvent) (st : EngineState)
    (ht : e.team = Team.blue)
    (hg : (is_garbage_time e.time st.cap_diff && decide (st.cap_diff - 1 < 0)) = true) :
    process_capture e st = { st with
      cap_diff := st.cap_diff - 1
      garbage_time_cap_diff := st.garbage_time_cap_diff - 1
      stats := update_stat (update_stat st.stats e.player_index
          (fun s => { s with garbage_time_caps := s.garbage_time_caps + 1 }))
        e.player_index (fun s => { s with caps := s.caps + 1, hold_start := Option.none })
      blue_fc := Option.none
      blue_grab_time := Option.none } := by
  simp only [process_capture, ht, hg]
  simp

/-- The Blue branch of `process_capture` when the garbage-time count is not
taken. -/
theorem process_capture_blue_ng (e : RelevantEvent) (st : EngineState)
    (ht : e.team = Team.blue)
    (hg : (is_garbage_time e.time st.cap_diff && decide (st.cap_diff - 1 < 0)) = false) :
    process_capture e st = { st with
      cap_diff := st.cap_diff - 1
      stats := update_stat st.stats e.player_index
        (fun s => { s with caps := s.caps + 1, hold_start := Option.none })
      blue_fc := Option.none
      blue_grab_time := Option.none } := by
  simp only [process_capture, ht, hg]
  simp

/-- The `Team::None` branch of `process_capture`. -/
theorem process_capture_none (e : RelevantEvent) (st : EngineState)
    (ht : e.team = Team.none) :
    process_capture e st = { st with
      stats := update_stat st.stats e.player_index
        (fun s => { s with caps := s.caps + 1, hold_start := Option.none }) } := by
  simp only [process_capture, ht]

/-- The claim's garbage-time condition, stated on the pre-capture
differential `diff`: one of the three lateness/margin clauses holds and the
post-capture differential still favors the capturing team. -/
def claim_garbage_time (e : RelevantEvent) (diff : Int) : Prop :=
  ((e.time > 330 * 60 ∧ 4 ≤ diff.natAbs) ∨ (e.time > 360 * 60 ∧ 3 ≤ diff.natAbs)
    ∨ (e.time > 390 * 60 ∧ 2 ≤ diff.natAbs)) ∧
  ((e.team = Team.red ∧ 0 < diff + 1) ∨ (e.team = Team.blue ∧ diff - 1 < 0))

theorem claim_garbage_red (e : RelevantEvent) (st : EngineState)
    (ht : e.team = Team.red) :
    claim_garbage_time e st.cap_diff ↔
      (is_garbage_time e.time st.cap_diff && decide (st.cap_diff + 1 > 0)) = true := by
  simp [claim_garbage_time, is_garbage_time, ht]
  omega

theorem claim_garbage_blue (e : RelevantEvent) (st : EngineState)
    (ht : e.team = Team.blue) :
    claim_garbage_time e st.cap_diff ↔
      (is_garbage_time e.time st.cap_diff && decide (st.cap_diff - 1 < 0)) = true := by
  simp [claim_garbage_time, is_garbage_time, ht]
  omega

/-- C4: a Capture increments the capturing player's `garbage_time_caps` and
moves `garbage_time_cap_diff` toward the capturing team exactly when the
claim's condition holds of the pre-capture differential; in particular, a
Capture at tick `330*60 + 1` with pre-capture differential 4 in the
capturing team's favor is garbage time, and with differential 3 it is
not. -/
theorem garbage_time_caps_iff :
    (∀ (e : RelevantEvent) (st : EngineState) (s0 : RankedPlayerStats),
      e.event_type = Event.capture → st.stats[e.player_index]? = some s0 →
      ∃ s1, (process_event e st).stats[e.player_index]? = some s1 ∧
        (s1.garbage_time_caps = s0.garbage_time_caps + 1 ↔
          claim_garbage_time e st.cap_diff) ∧
        ((process_event e st).garbage_time_cap_diff ≠ st.garbage_time_cap_diff ↔
          claim_garbage_time e st.cap_diff) ∧
        (claim_garbage_time e st.cap_diff →
          (process_event e st).garbage_time_cap_diff =
            st.garbage_time_cap_diff + (if e.team = Team.red then 1 else -1))) ∧
    ((process_event ⟨330 * 60 + 1, .capture, 0, .red⟩
        { cap_diff := 4, stats := [{}] }).stats.getD 0 {}).garbage_time_caps = 1 ∧
    ((process_event ⟨330 * 60 + 1, .capture, 0, .red⟩
        { cap_diff := 3, stats := [{}] }).stats.getD 0 {}).garbage_time_caps = 0 := by
  refine ⟨?_, by decide, by decide⟩
  intro e st s0 he hs
  have hpe : process_event e st = process_capture e st := by
    simp [process_event, he]
  rw [hpe]
  cases ht : e.team with
  | red =>
    by_cases hg : (is_garbage_time e.time st.cap_diff &&
        decide (st.cap_diff + 1 > 0)) = true
    · have hclaim : claim_garbage_time e st.cap_diff :=
        (claim_garbage_red e st ht).mpr hg
      rw [process_capture_red_g e st ht hg]
      refine ⟨_, update_stat_at _ _ _ _ (update_stat_at _ _ _ _ hs), ?_, ?_, ?_⟩
      · simp [hclaim]
      · simp only [hclaim, iff_true]
        simp
      · intro _; simp
    · rw [Bool.not_eq_true] at hg
      have hclaim : ¬ claim_garbage_time e st.cap_diff := by
        rw [claim_garbage_red e st ht, hg]
        simp
      rw [process_capture_red_ng e st ht hg]
      refine ⟨_, update_stat_at _ _ _ _ hs, ?_, ?_, fun h => absurd h hclaim⟩
      · simp only [hclaim, iff_true]
        simp
      · simp [hclaim]
  | blue =>
    by_cases hg : (is_garbage_time e.time st.cap_diff &&
        decide (st.cap_diff - 1 < 0)) = true
    · have hclaim : claim_garbage_time e st.cap_diff :=
        (claim_garbage_blue e st ht).mpr hg
      rw [process_capture_blue_g e st ht hg]
      refine ⟨_, update_stat_at _ _ _ _ (update_stat_at _ _ _ _ hs), ?_, ?_, ?_⟩
      · simp [hclaim]
      · simp only [hclaim, iff_true]
        simp
      · intro _; simp [ht]; omega
    · rw [Bool.not_eq_true] at hg
      have hclaim : ¬ claim_garbage_time e st.cap_diff := by
        rw [claim_garbage_blue e st ht, hg]
        simp
      rw [process_capture_blue_ng e st ht hg]
      refine ⟨_, update_stat_at _ _ _ _ hs, ?_, ?_, fun h => absurd h hclaim⟩
      · simp only [hclaim, iff_true]
        simp
      · simp [hclaim]
  | none =>
    have hclaim : ¬ claim_garbage_time e st.cap_diff := by
      intro hc
      rcases hc.2 with ⟨h2, _⟩ | ⟨h2, _⟩ <;> rw [ht] at h2 <;> exact absurd h2 (by simp)
    rw [process_capture_none e st ht]
    refine ⟨_, update_stat_at _ _ _ _ hs, ?_, ?_, fun h => absurd h hclaim⟩
    · simp only [hclaim, iff_false]
      simp
    · simp [hclaim]

/-- Witness for C4: a Red capture at tick `330*60 + 1` with pre-capture
differential 4 increments the scorer's `garbage_time_caps`. -/
theorem garbage_time_caps_iff_witness :
    ∃ s1, (process_event ⟨330 * 60 + 1, .capture, 0, .red⟩
        { cap_diff := 4, stats := [{}] }).stats[0]? = some s1 ∧
      s1.garbage_time_caps = (0 : Nat) + 1 := by
  obtain ⟨s1, h1, h2, -, -⟩ := garbage_time_caps_iff.1
    ⟨330 * 60 + 1, .capture, 0, .red⟩ { cap_diff := 4, stats := [{}] } {}
    rfl (by decide)
  exact ⟨s1, h1, h2.mpr ⟨Or.inl ⟨by decide, by decide⟩, Or.inl ⟨rfl, by decide⟩⟩⟩


/-! ## Records pipeline lemmas (claim C10) -/

theorem records_drop_fields (time : Nat) (stats : PlayerGameStats)
    (rg bg : Option Nat) (team : Team) (cutoff : Nat) :
    (records_drop time stats rg bg team cutoff).1.pops = stats.pops + 1 ∧
    (records_drop time stats rg bg team cutoff).1.hold_start = Option.none ∧
    (records_drop time stats rg bg team cutoff).1.hold =
      (close_interval stats.hold_start stats.hold time cutoff).1 := by
  simp only [records_drop]
  cases team <;> cases hlg : stats.last_grab_time <;>
    cases hh : stats.hold_start <;> simp [close_interval, hh] <;>
    (try split) <;> simp

/-- C10: in the records pipeline, a Drop at or before the cutoff increments
the acting player's `pops` counter, in addition to closing the open hold
(adding `min(time, cutoff) - start` when the hold started before the
cutoff); a plain Pop increments the same counter, so `pops` counts drops as
well as pops. -/
theorem records_pops_count_drops :
    (∀ (time : Nat) (stats : PlayerGameStats) (rg bg : Option Nat)
      (team : Team) (cutoff : Nat), time ≤ cutoff →
      (process_event_static Event.drop time stats rg bg team cutoff).1.pops =
        stats.pops + 1 ∧
      (process_event_static Event.drop time stats rg bg team cutoff).1.hold_start =
        Option.none ∧
      (∀ hs, stats.hold_start = some hs → hs < cutoff →
        (process_event_static Event.drop time stats rg bg team cutoff).1.hold =
          stats.hold + (min time cutoff - hs)) ∧
      (∀ hs, stats.hold_start = some hs → ¬ hs < cutoff →
        (process_event_static Event.drop time stats rg bg team cutoff).1.hold =
          stats.hold) ∧
      (stats.hold_start = Option.none →
        (process_event_static Event.drop time stats rg bg team cutoff).1.hold =
          stats.hold)) ∧
    (∀ (time : Nat) (stats : PlayerGameStats) (rg bg : Option Nat)
      (team : Team) (cutoff : Nat), time ≤ cutoff →
      (process_event_static Event.pop time stats rg bg team cutoff).1.pops =
        stats.pops + 1) := by
  constructor
  · intro time stats rg bg team cutoff h
    have hnt : ¬ time > cutoff := by omega
    have hps : process_event_static Event.drop time stats rg bg team cutoff =
        records_drop time stats rg bg team cutoff := by
      simp [process_event_static, hnt]
    rw [hps]
    obtain ⟨h1, h2, h3⟩ := records_drop_fields time stats rg bg team cutoff
    refine ⟨h1, h2, ?_, ?_, ?_⟩
    · intro hs hhs hlt
      rw [h3, hhs]
      simp [close_interval, hlt]
    · intro hs hhs hlt
      rw [h3, hhs]
      simp [close_interval, hlt]
    · intro hhs
      rw [h3, hhs]
      simp [close_interval]
  · intro time stats rg bg team cutoff h
    have hnt : ¬ time > cutoff := by omega
    simp [process_event_static, hnt]

/-- Witness for C10: a Drop at tick 10 with cutoff 100 and an open hold
from tick 3 adds one pop and 7 ticks of hold. -/
theorem records_pops_count_drops_witness :
    (process_event_static Event.drop 10 { hold_start := some 3 } Option.none
        Option.none Team.red 100).1.pops = ({ hold_start := some 3 } :
        PlayerGameStats).pops + 1 ∧
    (process_event_static Event.pop 10 {} Option.none Option.none Team.red
        100).1.pops = ({} : PlayerGameStats).pops + 1 :=
  ⟨(records_pops_count_drops.1 10 { hold_start := some 3 } Option.none
      Option.none Team.red 100 (by norm_num)).1,
   records_pops_count_drops.2 10 {} Option.none Option.none Team.red 100
      (by norm_num)⟩


/-! ## Join events never reach the replay loop (claim C3) -/

instance {e a : Type} [DecidableEq e] [DecidableEq a] : DecidableEq (Except e a) :=
  fun x y =>
    match x, y with
    | .error u, .error v =>
      if h : u = v then .isTrue (by rw [h])
      else .isFalse (fun hc => h (Except.error.inj hc))
    | .error _, .ok _ => .isFalse (fun hc => Except.noConfusion hc)
    | .ok _, .error _ => .isFalse (fun hc => Except.noConfusion hc)
    | .ok u, .ok v =>
      if h : u = v then .isTrue (by rw [h])
      else .isFalse (fun hc => h (Except.ok.inj hc))


instance : Inhabited PlayerEvent := ⟨⟨.join, 0, .none, 0, .none⟩⟩

/-- A concrete eligible match log: players 0-3 start Red, players 4-6 start
Blue, player 7 starts with no team and its buffer decodes to a single tick
that joins Blue (`[0xC0, 0x00]`: team-change bit set, direction bit set). -/
def c3_log : MatchLog :=
  { official := true
    players :=
      [⟨1, [], ""⟩, ⟨1, [], ""⟩, ⟨1, [], ""⟩, ⟨1, [], ""⟩,
       ⟨2, [], ""⟩, ⟨2, [], ""⟩, ⟨2, [], ""⟩, ⟨0, [192, 0], ""⟩]
    group := some ""
    time_limit := 8
    duration := 10800 }

/-- C3 (failing input): player 7 of `c3_log` starts with team None and its
decoded stream contains a Join to Blue, yet `Join` is not in
`RankedStatConfig::RELEVANT_EVENTS`, so the Join never reaches the fused
timeline: the replay leaves the Blue roster at `[4, 5, 6]` (player 7 is on
neither roster after the full replay) and `process_ranked_match` returns
`None` — the Join roster handler of `process_ranked_match` (lines 75-85)
is unreachable for this rule set, contradicting the claim. -/
theorem join_not_replayed :
    prefilter_pass c3_log = true ∧
    (player_events [192, 0] Team.none 10800).map (fun e => e.event_type) =
      [Event.join, Event.end_] ∧
    ((player_events [192, 0] Team.none 10800).getD 0 default).team = Team.blue ∧
    Event.join ∉ RELEVANT_EVENTS ∧
    collect_relevant c3_log = .ok ⟨[], [0, 1, 2, 3], [4, 5, 6]⟩ ∧
    (∀ out, process_ranked_match c3_log out → out = .ok Option.none) ∧
    7 ∉ (replay_timeline c3_log.duration []
        ⟨[0, 1, 2, 3], [4, 5, 6], { stats := List.replicate 8 {} }⟩).blue_team ∧
    7 ∉ (replay_timeline c3_log.duration []
        ⟨[0, 1, 2, 3], [4, 5, 6], { stats := List.replicate 8 {} }⟩).red_team := by
  have hco : collect_relevant c3_log = .ok ⟨[], [0, 1, 2, 3], [4, 5, 6]⟩ := by
    decide
  refine ⟨by decide, by decide, by decide, by decide, hco, ?_, by decide, by decide⟩
  intro out hpr
  rcases hpr with ⟨hpf, hout⟩ | ⟨-, hrest⟩
  · exact absurd hpf (by decide)
  · rcases hrest with ⟨herr, -⟩ | ⟨col, timeline, hcol, hadm, hout⟩
    · rw [hco] at herr
      exact Except.noConfusion herr
    · rw [hco] at hcol
      have hceq : col = ⟨[], [0, 1, 2, 3], [4, 5, 6]⟩ := (Except.ok.inj hcol).symm
      subst hceq
      have htl : timeline = [] := hadm.1.eq_nil
      subst htl
      rw [hout]
      decide


/-! ## The 4v4 roster postcondition (claim C7) -/

theorem collect_go_player_index_lt (log : MatchLog) :
    ∀ (ps : List PlayerLog) (i : Nat) (col : CollectResult),
      collect_go log i ps = .ok col →
      ∀ e ∈ col.events, i ≤ e.player_index ∧ e.player_index < i + ps.length := by
  intro ps
  induction ps with
  | nil =>
    intro i col h e he
    simp only [collect_go] at h
    have hc : col = ⟨[], [], []⟩ := (Except.ok.inj h).symm
    subst hc
    simp at he
  | cons p rest ih =>
    intro i col h e he
    simp only [collect_go] at h
    cases hp : team_from_usize p.team with
    | none => rw [hp] at h; exact Except.noConfusion h
    | some t =>
      rw [hp] at h
      cases hr : collect_go log (i + 1) rest with
      | error u => rw [hr] at h; exact Except.noConfusion h
      | ok c =>
        rw [hr] at h
        have hc : col = ⟨(player_events p.events t log.duration).filterMap
            (fun ev => if ev.event_type ∈ RELEVANT_EVENTS then
              some (⟨ev.time, ev.event_type, i, ev.team⟩ : RelevantEvent)
             else Option.none) ++ c.events,
            (if t = Team.red then [i] else []) ++ c.red_team,
            (if t = Team.blue then [i] else []) ++ c.blue_team⟩ :=
          (Except.ok.inj h).symm
        subst hc
        simp only [List.mem_append] at he
        rcases he with he | he
        · have := List.mem_filterMap.mp he
          obtain ⟨ev, -, hev⟩ := this
          by_cases hin : ev.event_type ∈ RELEVANT_EVENTS
          · rw [if_pos hin] at hev
            have : e.player_index = i := by
              cases Option.some.inj hev
              rfl
            simp [this]
          · rw [if_neg hin] at hev
            exact Option.noConfusion hev
        · have := ih (i + 1) c hr e he
          constructor
          · omega
          · simpa [Nat.add_assoc] using by omega

/-- C7: for a match log passing the eligibility pre-filters, every event of
any fused timeline indexes a real player, and the post-sort phase of
`process_ranked_match` yields a result exactly when, after the full replay
of that timeline, the red and the blue rosters each have exactly 4 members;
otherwise it yields `None` (not an error). -/
theorem roster_4v4_postcondition :
    ∀ (log : MatchLog) (col : CollectResult) (timeline : List RelevantEvent),
      prefilter_pass log = true →
      collect_relevant log = .ok col →
      sort_by_time_admissible col.events timeline →
      (∀ e ∈ timeline, e.player_index < log.players.length) ∧
      ((process_post log col timeline).isSome = true ↔
        (replay_timeline log.duration timeline
          ⟨col.red_team, col.blue_team,
            { stats := List.replicate log.players.length {} }⟩).red_team.length = 4 ∧
        (replay_timeline log.duration timeline
          ⟨col.red_team, col.blue_team,
            { stats := List.replicate log.players.length {} }⟩).blue_team.length = 4) := by
  intro log col timeline hpf hcol hadm
  constructor
  · intro e he
    have hmem : e ∈ col.events := hadm.1.mem_iff.mp he
    have := collect_go_player_index_lt log log.players 0 col hcol e hmem
    omega
  · simp only [process_post]
    split
    next h => simp [h.1, h.2]
    next h => simpa using h

/-- An eligible 4v4 log with all-empty buffers, used to witness C7. -/
def c7_log : MatchLog :=
  { official := true
    players :=
      [⟨1, [], ""⟩, ⟨1, [], ""⟩, ⟨1, [], ""⟩, ⟨1, [], ""⟩,
       ⟨2, [], ""⟩, ⟨2, [], ""⟩, ⟨2, [], ""⟩, ⟨2, [], ""⟩]
    group := some ""
    time_limit := 8
    duration := 10800 }

/-- Witness for C7: on `c7_log` the replay of the empty timeline keeps both
rosters at 4, so the post-sort phase returns a result. -/
theorem roster_4v4_postcondition_witness :
    (process_post c7_log ⟨[], [0, 1, 2, 3], [4, 5, 6, 7]⟩ []).isSome = true := by
  have h := roster_4v4_postcondition c7_log ⟨[], [0, 1, 2, 3], [4, 5, 6, 7]⟩ []
    (by decide) (by decide) ⟨List.Perm.nil, List.Pairwise.nil⟩
  exact h.2.mpr (by decide)


/-! ## The fused timeline ordering (claim C2) -/

/-- Two relevant events with the same tick from different players, in
pre-sort (source) order. -/
def c2_in : List RelevantEvent :=
  [⟨100, .grab, 0, .red⟩, ⟨100, .return_, 1, .blue⟩]

/-- The same two events in the opposite order: also an admissible output of
`sort_unstable_by_key`, since both orders are sorted by `time`. -/
def c2_out : List RelevantEvent :=
  [⟨100, .return_, 1, .blue⟩, ⟨100, .grab, 0, .red⟩]

/-- C2 (counterexample): `sort_unstable_by_key` guarantees only a sorted
permutation, so the fused timeline for the source order `c2_in` may be
`c2_out`, in which the two equal-tick events do not keep their source
order: the claimed stable tie-break does not hold of the code. -/
theorem fused_ties_counterexample :
    sort_by_time_admissible c2_in c2_out ∧
    ¬ ties_keep_source_order c2_in c2_out := by
  constructor
  · exact ⟨by decide, by decide⟩
  · rintro ⟨f, -, heq, hmono⟩
    have hc2 : c2_in.length = 2 := by decide
    have h0 := heq ⟨0, by decide⟩
    have hf0 : (f ⟨0, by decide⟩).val = 1 := by
      have hlt2 := (f ⟨0, by decide⟩).isLt
      have hv : (f ⟨0, by decide⟩).val = 0 ∨ (f ⟨0, by decide⟩).val = 1 := by
        omega
      rcases hv with h | h
      · exfalso
        have hfe : f ⟨0, by decide⟩ = ⟨0, by decide⟩ := Fin.ext h
        rw [hfe] at h0
        exact absurd h0 (by decide)
      · exact h
    have hlt := hmono ⟨0, by decide⟩ ⟨1, by decide⟩ (by decide) (by decide)
    have hlt2b := (f ⟨1, by decide⟩).isLt
    rw [Fin.lt_def, hf0] at hlt
    omega

/-- C2 (amended): every fused timeline admitted by the unstable sort is
sorted by tick ascending and is a permutation of the collected events
(player enumeration order, then per-player emission order); an admissible
timeline always exists (e.g. a stable merge sort by tick); the order of
equal-tick events is not specified. -/
theorem fused_timeline_sorted :
    (∀ (log : MatchLog) (col : CollectResult) (timeline : List RelevantEvent),
      collect_relevant log = .ok col →
      sort_by_time_admissible col.events timeline →
      timeline.Pairwise (fun a b => a.time ≤ b.time) ∧
      timeline.Perm col.events) ∧
    (∀ input : List RelevantEvent,
      sort_by_time_admissible input
        (input.mergeSort (fun a b => decide (a.time ≤ b.time)))) := by
  constructor
  · intro log col timeline _ hadm
    exact ⟨hadm.2, hadm.1⟩
  · intro input
    constructor
    · exact List.mergeSort_perm input _
    · have hs := @List.sorted_mergeSort RelevantEvent
        (fun a b => decide (a.time ≤ b.time))
        (by intro a b c hab hbc; simp only [decide_eq_true_eq] at *; omega)
        (by intro a b; simp only [Bool.or_eq_true, decide_eq_true_eq]; omega)
        input
      exact hs.imp (fun h => by simpa using h)

/-- Witness for C2 (amended): the fused timeline of the eligible log
`c7_log` (whose collected event list is empty) is sorted and a permutation
of the collected events. -/
theorem fused_timeline_sorted_witness :
    List.Pairwise (fun a b : RelevantEvent => a.time ≤ b.time) ([] : List RelevantEvent) ∧
    List.Perm ([] : List RelevantEvent)
      (CollectResult.events ⟨[], [0, 1, 2, 3], [4, 5, 6, 7]⟩) :=
  fused_timeline_sorted.1 c7_log ⟨[], [0, 1, 2, 3], [4, 5, 6, 7]⟩ []
    (by decide) ⟨List.Perm.nil, List.Pairwise.nil⟩


/-! ## The final End event (claim C8) -/

theorem capture_events_types (n : Nat) (k : Bool) (f : Flag) (t p : Nat)
    (tm : Team) : ∀ e ∈ (capture_events n k f t p tm).1,
      e.event_type = Event.flaglessCapture ∨ e.event_type = Event.capture := by
  induction n generalizing k f with
  | zero => intro e he; simp [capture_events] at he
  | succ m ih =>
    intro e he
    rw [capture_events] at he
    split at he
    · rcases List.mem_cons.mp he with h | h
      · left; rw [h]
      · exact ih k f e h
    · rcases List.mem_cons.mp he with h | h
      · right; rw [h]
      · exact ih true Flag.none e h

theorem pup_emit_types : ∀ (is : List Nat) (pups lost gained t : Nat)
    (tm : Team) (f : Flag), ∀ e ∈ (pup_emit_go is pups lost gained t tm f).1,
      e.event_type = Event.powerdown ∨ e.event_type = Event.powerup := by
  intro is
  induction is with
  | nil => intro pups lost gained t tm f e he; simp [pup_emit_go] at he
  | cons i rest ih =>
    intro pups lost gained t tm f e he
    rw [pup_emit_go] at he
    split at he
    · rcases List.mem_cons.mp he with h | h
      · left; rw [h]
      · exact ih _ _ _ _ _ _ e h
    · split at he
      · rcases List.mem_cons.mp he with h | h
        · right; rw [h]
        · exact ih _ _ _ _ _ _ e h
      · exact ih _ _ _ _ _ _ e he

theorem toggle_events_types (tog cur : Bool) (sE tE : Event) (t : Nat)
    (f : Flag) (p : Nat) (tm : Team) :
    ∀ e ∈ (toggle_events tog cur sE tE t f p tm).1,
      e.event_type = sE ∨ e.event_type = tE := by
  intro e he
  rw [toggle_events] at he
  split at he
  · split at he
    · simp at he; right; rw [he]
    · simp at he; left; rw [he]
  · simp at he

theorem mem_ite_fst {b : Type} {c : Prop} [Decidable c]
    {x y : List PlayerEvent × b} {e : PlayerEvent}
    (h : e ∈ (if c then x else y).1) : e ∈ x.1 ∨ e ∈ y.1 := by
  split at h
  · exact Or.inl h
  · exact Or.inr h

/-- No iteration of the decode loop ever emits an `End` event; the single
`End` is appended only after the loop exits. -/
theorem player_tick_no_end (s : DecoderState) :
    ∀ e ∈ (player_tick s).1, e.event_type ≠ Event.end_ := by
  intro e he
  simp only [player_tick, emit_tick, List.append_assoc, List.mem_append] at he
  rcases he with he | he | he | he | he | he | he | he | he | he | he | he
  · split at he <;> simp_all
  · have := List.eq_of_mem_replicate he
    rw [this]; simp
  · have := List.eq_of_mem_replicate he
    rw [this]; simp
  · split at he <;> simp_all
  · rcases capture_events_types _ _ _ _ _ _ e he with h | h <;> rw [h] <;> decide
  · rcases pup_emit_types _ _ _ _ _ _ _ e he with h | h <;> rw [h] <;> decide
  · have := List.eq_of_mem_replicate he
    rw [this]; simp
  · rcases toggle_events_types _ _ _ _ _ _ _ _ e he with h | h <;> rw [h] <;> decide
  · rcases toggle_events_types _ _ _ _ _ _ _ _ e he with h | h <;> rw [h] <;> decide
  · rcases toggle_events_types _ _ _ _ _ _ _ _ e he with h | h <;> rw [h] <;> decide
  · rcases mem_ite_fst he with he | he
    · rcases mem_ite_fst he with he | he
      · obtain rfl := List.mem_singleton.mp he
        exact (by decide : Event.drop ≠ Event.end_)
      · obtain rfl := List.mem_singleton.mp he
        exact (by decide : Event.pop ≠ Event.end_)
    · exact absurd he (List.not_mem_nil e)
  · rcases mem_ite_fst he with he | he
    · exact absurd he (List.not_mem_nil e)
    · rcases mem_ite_fst he with he | he
      · obtain rfl := List.mem_singleton.mp he
        exact (by decide : Event.quit ≠ Event.end_)
      · obtain rfl := List.mem_singleton.mp he
        exact (by decide : Event.switch ≠ Event.end_)

theorem player_events_go_single_end :
    ∀ (fuel : Nat) (s : DecoderState) (duration : Nat),
      ∃ (l : List PlayerEvent) (e : PlayerEvent),
        player_events_go fuel s duration = l ++ [e] ∧
        e.event_type = Event.end_ ∧ e.time = duration ∧
        ∀ x ∈ l, x.event_type ≠ Event.end_ := by
  intro fuel
  induction fuel with
  | zero =>
    intro s duration
    exact ⟨[], ⟨Event.end_, duration, s.flag, s.powerups, s.team⟩,
      rfl, rfl, rfl, by simp⟩
  | succ m ih =>
    intro s duration
    by_cases hr : events_remaining s.r
    · obtain ⟨l, e, heq, het, htm, hne⟩ := ih (player_tick s).2 duration
      refine ⟨(player_tick s).1 ++ l, e, ?_, het, htm, ?_⟩
      · simp only [player_events_go, if_pos hr]
        rw [heq, List.append_assoc]
      · intro x hx
        rcases List.mem_append.mp hx with hx | hx
        · exact player_tick_no_end s x hx
        · exact hne x hx
    · refine ⟨[], ⟨Event.end_, duration, s.flag, s.powerups, s.team⟩, ?_, rfl,
        rfl, by simp⟩
      simp only [player_events_go, if_neg hr, List.nil_append]

/-- C8: for every input buffer, starting team and duration, the decoded
stream is some prefix with no `End` event followed by exactly one final
`End` event whose time is the supplied duration. -/
theorem player_events_single_end :
    ∀ (data : List Nat) (team : Team) (duration : Nat),
      ∃ (l : List PlayerEvent) (e : PlayerEvent),
        player_events data team duration = l ++ [e] ∧
        e.event_type = Event.end_ ∧ e.time = duration ∧
        ∀ x ∈ l, x.event_type ≠ Event.end_ := by
  intro data team duration
  exact player_events_go_single_end (8 * data.length) _ duration


/-! ## Cursor monotonicity and termination (claim C9) -/

theorem events_remaining_iff (r : EventsReader) :
    events_remaining r = true ↔ r.pos < 8 * r.data.length := by
  simp only [events_remaining, decide_eq_true_eq]
  omega

theorem read_bool_past_end (r : EventsReader)
    (h : events_remaining r = false) : read_bool r = (false, r) := by
  rw [read_bool, if_neg (by simp [h])]

theorem read_bool_data (r : EventsReader) : (read_bool r).2.data = r.data := by
  rw [read_bool]
  split <;> rfl

theorem read_bool_pos_le (r : EventsReader) : r.pos ≤ (read_bool r).2.pos := by
  rw [read_bool]
  split <;> simp

theorem read_bool_advance (r : EventsReader)
    (h : events_remaining r = true) : (read_bool r).2.pos = r.pos + 1 := by
  rw [read_bool, if_pos h]

theorem read_fixed_go_reader (n : Nat) : ∀ (acc : Nat) (r : EventsReader),
    (read_fixed_go n acc r).2.data = r.data ∧
    r.pos ≤ (read_fixed_go n acc r).2.pos := by
  induction n with
  | zero => intro acc r; exact ⟨rfl, Nat.le_refl _⟩
  | succ m ih =>
    intro acc r
    simp only [read_fixed_go]
    obtain ⟨hd, hp⟩ := ih (acc <<< 1 ||| (if (read_bool r).1 then 1 else 0))
      (read_bool r).2
    exact ⟨hd.trans (read_bool_data r), (read_bool_pos_le r).trans hp⟩

theorem read_fixed_data (n : Nat) (r : EventsReader) :
    (read_fixed n r).2.data = r.data := (read_fixed_go_reader n 0 r).1

theorem read_fixed_pos_le (n : Nat) (r : EventsReader) :
    r.pos ≤ (read_fixed n r).2.pos := (read_fixed_go_reader n 0 r).2

theorem read_tally_go_reader (fuel : Nat) : ∀ r : EventsReader,
    (read_tally_go fuel r).2.data = r.data ∧
    r.pos ≤ (read_tally_go fuel r).2.pos := by
  induction fuel with
  | zero => intro r; exact ⟨rfl, Nat.le_refl _⟩
  | succ m ih =>
    intro r
    simp only [read_tally_go]
    split
    · obtain ⟨hd, hp⟩ := ih (read_bool r).2
      exact ⟨hd.trans (read_bool_data r), (read_bool_pos_le r).trans hp⟩
    · exact ⟨read_bool_data r, read_bool_pos_le r⟩

theorem read_tally_data (r : EventsReader) :
    (read_tally r).2.data = r.data := (read_tally_go_reader _ r).1

theorem read_tally_pos_le (r : EventsReader) :
    r.pos ≤ (read_tally r).2.pos := (read_tally_go_reader _ r).2

theorem read_footer_data (r : EventsReader) :
    (read_footer r).2.data = r.data := by
  simp only [read_footer]
  rw [read_fixed_data, read_fixed_data]

theorem read_footer_pos_le (r : EventsReader) :
    r.pos ≤ (read_footer r).2.pos := by
  simp only [read_footer]
  exact (read_fixed_pos_le 2 r).trans (read_fixed_pos_le _ _)

theorem pup_read_go_reader : ∀ (is : List Nat) (r : EventsReader)
    (pups nnp gained lost : Nat),
    (pup_read_go is r pups nnp gained lost).1.data = r.data ∧
    r.pos ≤ (pup_read_go is r pups nnp gained lost).1.pos := by
  intro is
  induction is with
  | nil => intro r pups nnp gained lost; exact ⟨rfl, Nat.le_refl _⟩
  | cons i rest ih =>
    intro r pups nnp gained lost
    simp only [pup_read_go]
    split
    · obtain ⟨hd, hp⟩ := ih (read_bool r).2 pups nnp gained
        (if (read_bool r).1 then lost ||| i else lost)
      exact ⟨hd.trans (read_bool_data r), (read_bool_pos_le r).trans hp⟩
    · split
      · split
        · obtain ⟨hd, hp⟩ := ih (read_bool r).2 pups (nnp - 1) (gained ||| i) lost
          exact ⟨hd.trans (read_bool_data r), (read_bool_pos_le r).trans hp⟩
        · obtain ⟨hd, hp⟩ := ih (read_bool r).2 pups nnp gained lost
          exact ⟨hd.trans (read_bool_data r), (read_bool_pos_le r).trans hp⟩
      · exact ih r pups nnp gained lost

theorem read_team_change_data (r : EventsReader) (team : Team) :
    (read_team_change r team).2.data = r.data := by
  simp only [read_team_change]
  repeat' split
  all_goals simp only [read_bool_data]

theorem read_team_change_pos (r : EventsReader) (team : Team)
    (h : events_remaining r = true) :
    r.pos < (read_team_change r team).2.pos := by
  simp only [read_team_change]
  repeat' split
  all_goals
    refine Nat.lt_of_lt_of_le
      (show r.pos < (read_bool r).2.pos by rw [read_bool_advance r h]; omega) ?_
  all_goals
    first
      | exact Nat.le_refl _
      | exact read_bool_pos_le _

theorem read_grab_bit_data (r : EventsReader) (flag : Flag) :
    (read_grab_bit r flag).2.data = r.data := by
  simp only [read_grab_bit]
  split
  · exact read_bool_data r
  · rfl

theorem read_grab_bit_pos (r : EventsReader) (flag : Flag) :
    r.pos ≤ (read_grab_bit r flag).2.pos := by
  simp only [read_grab_bit]
  split
  · exact read_bool_pos_le r
  · exact Nat.le_refl _

theorem read_flag_kept_data (r : EventsReader) (pop : Bool) (nt : Team)
    (ncaps : Nat) (flag : Flag) (grab : Bool) :
    (read_flag_kept r pop nt ncaps flag grab).2.data = r.data := by
  simp only [read_flag_kept]
  repeat' split
  all_goals first | rfl | exact read_bool_data r

theorem read_flag_kept_pos (r : EventsReader) (pop : Bool) (nt : Team)
    (ncaps : Nat) (flag : Flag) (grab : Bool) :
    r.pos ≤ (read_flag_kept r pop nt ncaps flag grab).2.pos := by
  simp only [read_flag_kept]
  repeat' split
  all_goals first | exact Nat.le_refl _ | exact read_bool_pos_le r

theorem read_new_flag_data (r : EventsReader) (grab kept : Bool)
    (flag : Flag) : (read_new_flag r grab kept flag).2.data = r.data := by
  simp only [read_new_flag]
  repeat' split
  all_goals first | rfl | exact read_fixed_data 2 r

theorem read_new_flag_pos (r : EventsReader) (grab kept : Bool)
    (flag : Flag) : r.pos ≤ (read_new_flag r grab kept flag).2.pos := by
  simp only [read_new_flag]
  repeat' split
  all_goals first | exact Nat.le_refl _ | exact read_fixed_pos_le 2 r

theorem read_tick_fields_data (r : EventsReader) (team : Team) (flag : Flag)
    (powerups : Nat) :
    (read_tick_fields r team flag powerups).2.data = r.data := by
  simp only [read_tick_fields]
  rw [read_footer_data, read_bool_data, read_bool_data, read_bool_data,
    (pup_read_go_reader _ _ _ _ _ _).1, read_tally_data, read_new_flag_data,
    read_flag_kept_data, read_tally_data, read_grab_bit_data, read_tally_data,
    read_tally_data, read_bool_data, read_team_change_data]

theorem read_tick_fields_pos_lt (r : EventsReader) (team : Team) (flag : Flag)
    (powerups : Nat) (h : events_remaining r = true) :
    r.pos < (read_tick_fields r team flag powerups).2.pos := by
  simp only [read_tick_fields]
  refine Nat.lt_of_lt_of_le (read_team_change_pos r team h) ?_
  refine Nat.le_trans ?_ (read_footer_pos_le _)
  refine Nat.le_trans ?_ (read_bool_pos_le _)
  refine Nat.le_trans ?_ (read_bool_pos_le _)
  refine Nat.le_trans ?_ (read_bool_pos_le _)
  refine Nat.le_trans ?_ (pup_read_go_reader _ _ _ _ _ _).2
  refine Nat.le_trans ?_ (read_tally_pos_le _)
  refine Nat.le_trans ?_ (read_new_flag_pos _ _ _ _)
  refine Nat.le_trans ?_ (read_flag_kept_pos _ _ _ _ _ _)
  refine Nat.le_trans ?_ (read_tally_pos_le _)
  refine Nat.le_trans ?_ (read_grab_bit_pos _ _)
  refine Nat.le_trans ?_ (read_tally_pos_le _)
  refine Nat.le_trans ?_ (read_tally_pos_le _)
  exact read_bool_pos_le _

/-- The state transformer of one loop iteration of `player_events`: apply
the tick when bits remain, otherwise do nothing. -/
def decoder_step (s : DecoderState) : DecoderState :=
  if events_remaining s.r then (player_tick s).2 else s

theorem player_tick_r (s : DecoderState) :
    (player_tick s).2.r = (read_tick_fields s.r s.team s.flag s.powerups).2 :=
  rfl

theorem player_tick_advances (s : DecoderState)
    (h : events_remaining s.r = true) :
    s.r.pos < (player_tick s).2.r.pos ∧ (player_tick s).2.r.data = s.r.data := by
  rw [player_tick_r]
  exact ⟨read_tick_fields_pos_lt _ _ _ _ h, read_tick_fields_data _ _ _ _⟩

theorem decoder_step_stops (n : Nat) : ∀ s : DecoderState,
    8 * s.r.data.length ≤ s.r.pos + n →
    events_remaining ((decoder_step^[n]) s).r = false := by
  induction n with
  | zero =>
    intro s h
    simp only [Function.iterate_zero, id]
    rw [Bool.eq_false_iff]
    intro hc
    rw [events_remaining_iff] at hc
    omega
  | succ m ih =>
    intro s h
    rw [Function.iterate_succ_apply]
    by_cases hr : events_remaining s.r = true
    · obtain ⟨hp, hd⟩ := player_tick_advances s hr
      have hstep : decoder_step s = (player_tick s).2 := by
        rw [decoder_step, if_pos hr]
      rw [hstep]
      apply ih
      rw [hd]
      omega
    · have hstep : decoder_step s = s := by
        rw [decoder_step, if_neg hr]
      rw [hstep]
      apply ih
      rw [Bool.not_eq_true, Bool.eq_false_iff] at hr
      have : ¬ s.r.pos < 8 * s.r.data.length := by
        intro hc
        exact hr ((events_remaining_iff s.r).mpr hc)
      omega

theorem player_events_go_not_remaining (n : Nat) (s : DecoderState)
    (duration : Nat) (h : events_remaining s.r = false) :
    player_events_go n s duration =
      [⟨Event.end_, duration, s.flag, s.powerups, s.team⟩] := by
  cases n with
  | zero => rfl
  | succ m => simp [player_events_go, h]

theorem player_events_go_fuel (fuel : Nat) : ∀ (extra : Nat)
    (s : DecoderState) (duration : Nat),
    8 * s.r.data.length ≤ s.r.pos + fuel →
    player_events_go (fuel + extra) s duration =
      player_events_go fuel s duration := by
  induction fuel with
  | zero =>
    intro extra s duration h
    have hr : events_remaining s.r = false := by
      rw [Bool.eq_false_iff]
      intro hc
      rw [events_remaining_iff] at hc
      omega
    rw [player_events_go_not_remaining _ _ _ hr,
      player_events_go_not_remaining _ _ _ hr]
  | succ m ih =>
    intro extra s duration h
    by_cases hr : events_remaining s.r = true
    · have heq : m + 1 + extra = (m + extra) + 1 := by omega
      rw [heq]
      simp only [player_events_go, if_pos hr]
      obtain ⟨hp, hd⟩ := player_tick_advances s hr
      rw [ih extra (player_tick s).2 duration (by rw [hd]; omega)]
    · rw [Bool.not_eq_true] at hr
      rw [player_events_go_not_remaining _ _ _ hr,
        player_events_go_not_remaining _ _ _ hr]

/-- C9: decoding always terminates and its fuel embedding is faithful:
reads past the end of the buffer return `false` without moving the cursor;
every loop iteration strictly advances the cursor and leaves the buffer
unchanged; after at most `8 * data.length` iterations no bits remain; and
giving the loop any fuel beyond `8 * data.length` yields the same finite
event sequence, so `player_events` computes the limit of the unbounded
`while` loop on every (also truncated or malformed) input. -/
theorem decoder_terminates :
    (∀ r : EventsReader, events_remaining r = false → read_bool r = (false, r)) ∧
    (∀ s : DecoderState, events_remaining s.r = true →
      s.r.pos < (player_tick s).2.r.pos ∧ (player_tick s).2.r.data = s.r.data) ∧
    (∀ (s : DecoderState) (n : Nat), 8 * s.r.data.length ≤ s.r.pos + n →
      events_remaining ((decoder_step^[n]) s).r = false) ∧
    (∀ (data : List Nat) (team : Team) (duration extra : Nat),
      player_events_go (8 * data.length + extra)
        ⟨⟨data, 0⟩, team, 0, Flag.none, 0, false, false, false⟩ duration =
        player_events data team duration) := by
  refine ⟨read_bool_past_end, player_tick_advances,
    fun s n h => decoder_step_stops n s h, ?_⟩
  intro data team duration extra
  rw [player_events]
  exact player_events_go_fuel (8 * data.length) extra _ duration (by simp)

/-- Witness for C9 on concrete inputs: a past-end read on the empty buffer,
a strict advance on the one-byte buffer `[8]`, loop exhaustion after 8
iterations, and fuel irrelevance with one spare unit of fuel. -/
theorem decoder_terminates_witness :
    read_bool ⟨[], 0⟩ = (false, ⟨[], 0⟩) ∧
    (⟨⟨[8], 0⟩, Team.red, 0, Flag.none, 0, false, false, false⟩ :
      DecoderState).r.pos <
      (player_tick ⟨⟨[8], 0⟩, Team.red, 0, Flag.none, 0, false, false,
        false⟩).2.r.pos ∧
    events_remaining ((decoder_step^[8]) ⟨⟨[8], 0⟩, Team.red, 0, Flag.none, 0,
      false, false, false⟩).r = false ∧
    player_events_go (8 * 1 + 1) ⟨⟨[8], 0⟩, Team.red, 0, Flag.none, 0, false,
      false, false⟩ 60 = player_events [8] Team.red 60 :=
  ⟨decoder_terminates.1 ⟨[], 0⟩ (by decide),
   (decoder_terminates.2.1 _ (by decide)).1,
   decoder_terminates.2.2.1 _ 8 (by decide),
   decoder_terminates.2.2.2 [8] Team.red 60 1⟩


/-! ## The flag invariant (claim C6) -/

theorem armed_after_append (cl : List Event) (l1 : List PlayerEvent) :
    ∀ (a : Bool) (l2 : List PlayerEvent),
      armed_after cl a (l1 ++ l2) = armed_after cl (armed_after cl a l1) l2 := by
  induction l1 with
  | nil => intro a l2; rfl
  | cons e rest ih =>
    intro a l2
    simp only [List.cons_append, armed_after]
    repeat' split
    all_goals exact ih _ l2

theorem scan_grab_ok_append (cl : List Event) (l1 : List PlayerEvent) :
    ∀ (a : Bool) (l2 : List PlayerEvent),
      scan_grab_ok cl a (l1 ++ l2) =
        (scan_grab_ok cl a l1 && scan_grab_ok cl (armed_after cl a l1) l2) := by
  induction l1 with
  | nil => intro a l2; simp [scan_grab_ok, armed_after]
  | cons e rest ih =>
    intro a l2
    simp only [List.cons_append, scan_grab_ok, armed_after, List.append_eq]
    repeat' split
    · rw [ih true l2, Bool.and_assoc]
    · exact ih false l2
    · exact ih a l2

theorem scan_one (cl : List Event) (a : Bool) (e : PlayerEvent) :
    scan_grab_ok cl a [e] =
      (if e.event_type == Event.grab then !a else true) := by
  simp only [scan_grab_ok]
  repeat' split
  all_goals simp

theorem armed_one (cl : List Event) (a : Bool) (e : PlayerEvent) :
    armed_after cl a [e] =
      (if e.event_type == Event.grab then true
       else if e.event_type ∈ cl then false else a) := by
  simp only [armed_after]

theorem armed_after_neutral (cl : List Event) (l : List PlayerEvent)
    (h : ∀ e ∈ l, e.event_type ≠ Event.grab ∧ e.event_type ∉ cl) :
    ∀ a, armed_after cl a l = a := by
  induction l with
  | nil => intro a; rfl
  | cons e rest ih =>
    intro a
    obtain ⟨h1, h2⟩ := h e (List.mem_cons_self e rest)
    simp only [armed_after]
    rw [if_neg (by simpa using h1), if_neg h2]
    exact ih (fun x hx => h x (List.mem_cons_of_mem e hx)) a

theorem scan_grab_ok_neutral (cl : List Event) (l : List PlayerEvent)
    (h : ∀ e ∈ l, e.event_type ≠ Event.grab ∧ e.event_type ∉ cl) :
    ∀ a, scan_grab_ok cl a l = true := by
  induction l with
  | nil => intro a; rfl
  | cons e rest ih =>
    intro a
    obtain ⟨h1, h2⟩ := h e (List.mem_cons_self e rest)
    simp only [scan_grab_ok]
    rw [if_neg (by simpa using h1), if_neg h2]
    exact ih (fun x hx => h x (List.mem_cons_of_mem e hx)) a

theorem armed_after_clearing_only (cl : List Event) (l : List PlayerEvent)
    (h : ∀ e ∈ l, e.event_type ∈ cl ∧ e.event_type ≠ Event.grab) :
    ∀ a, l ≠ [] → armed_after cl a l = false := by
  induction l with
  | nil => intro a hne; exact absurd rfl hne
  | cons e rest ih =>
    intro a hne
    obtain ⟨h1, h2⟩ := h e (List.mem_cons_self e rest)
    simp only [armed_after]
    rw [if_neg (by simpa using h2), if_pos h1]
    cases hr : rest with
    | nil => rfl
    | cons x xs =>
      rw [← hr]
      exact ih (fun y hy => h y (List.mem_cons_of_mem e hy)) false (by rw [hr]; simp)

theorem scan_grab_ok_clearing_only (cl : List Event) (l : List PlayerEvent)
    (h : ∀ e ∈ l, e.event_type ∈ cl ∧ e.event_type ≠ Event.grab) :
    ∀ a, scan_grab_ok cl a l = true := by
  induction l with
  | nil => intro a; rfl
  | cons e rest ih =>
    intro a
    obtain ⟨h1, h2⟩ := h e (List.mem_cons_self e rest)
    simp only [scan_grab_ok]
    rw [if_neg (by simpa using h2), if_pos h1]
    exact ih (fun y hy => h y (List.mem_cons_of_mem e hy)) false

theorem capture_events_nonempty (m : Nat) (k : Bool) (f : Flag) (t p : Nat)
    (tm : Team) : (capture_events (m + 1) k f t p tm).1 ≠ [] := by
  rw [capture_events]
  split <;> simp

theorem flag_from_usize_ne (v : Nat) (h : v < 4) :
    flag_from_usize (1 + v) ≠ Flag.none := by
  interval_cases v <;> decide


theorem rtf_grab_flag (r : EventsReader) (t : Team) (f : Flag) (p : Nat)
    (h : (read_tick_fields r t f p).1.grab_occurred = true) : f = Flag.none := by
  simp only [read_tick_fields] at h
  simp only [read_grab_bit] at h
  by_cases hf : f = Flag.none
  · exact hf
  · rw [if_neg hf] at h
    exact absurd h (by simp)

theorem rtf_new_flag_ne (r : EventsReader) (t : Team) (f : Flag) (p : Nat)
    (h : (read_tick_fields r t f p).1.grab_occurred = true) :
    (read_tick_fields r t f p).1.new_flag ≠ Flag.none := by
  simp only [read_tick_fields] at h ⊢
  rw [read_new_flag, if_pos h]
  split
  · exact flag_from_usize_ne _ (read_fixed_lt 2 _)
  · exact fun hc => Flag.noConfusion hc

theorem scan_capture_events (n : Nat) (k : Bool) (fl : Flag) (t p : Nat)
    (tm : Team) (a : Bool) :
    scan_grab_ok clearing_actual a (capture_events n k fl t p tm).1 = true :=
  scan_grab_ok_clearing_only _ _
    (fun e he => by
      rcases capture_events_types n k fl t p tm e he with h | h <;>
        rw [h] <;> exact ⟨by decide, by decide⟩) a

theorem armed_capture_events (m : Nat) (k : Bool) (fl : Flag) (t p : Nat)
    (tm : Team) (a : Bool) :
    armed_after clearing_actual a (capture_events (m + 1) k fl t p tm).1 = false :=
  armed_after_clearing_only _ _
    (fun e he => by
      rcases capture_events_types (m + 1) k fl t p tm e he with h | h <;>
        rw [h] <;> exact ⟨by decide, by decide⟩) a
    (capture_events_nonempty m k fl t p tm)

theorem scan_pup_emit (is : List Nat) (pups lost gained t : Nat) (tm : Team)
    (fl : Flag) (a : Bool) :
    scan_grab_ok clearing_actual a (pup_emit_go is pups lost gained t tm fl).1 = true :=
  scan_grab_ok_neutral _ _
    (fun e he => by
      rcases pup_emit_types is pups lost gained t tm fl e he with h | h <;>
        rw [h] <;> exact ⟨by decide, by decide⟩) a

theorem armed_pup_emit (is : List Nat) (pups lost gained t : Nat) (tm : Team)
    (fl : Flag) (a : Bool) :
    armed_after clearing_actual a (pup_emit_go is pups lost gained t tm fl).1 = a :=
  armed_after_neutral _ _
    (fun e he => by
      rcases pup_emit_types is pups lost gained t tm fl e he with h | h <;>
        rw [h] <;> exact ⟨by decide, by decide⟩) a

theorem scan_replicate_mk (n time : Nat) (fl : Flag) (pups : Nat) (tm : Team)
    (ty : Event) (h1 : ty ≠ Event.grab) (h2 : ty ∉ clearing_actual) (a : Bool) :
    scan_grab_ok clearing_actual a
      (List.replicate n (⟨ty, time, fl, pups, tm⟩ : PlayerEvent)) = true :=
  scan_grab_ok_neutral _ _
    (fun e he => by rw [List.eq_of_mem_replicate he]; exact ⟨h1, h2⟩) a

theorem armed_replicate_mk (n time : Nat) (fl : Flag) (pups : Nat) (tm : Team)
    (ty : Event) (h1 : ty ≠ Event.grab) (h2 : ty ∉ clearing_actual) (a : Bool) :
    armed_after clearing_actual a
      (List.replicate n (⟨ty, time, fl, pups, tm⟩ : PlayerEvent)) = a :=
  armed_after_neutral _ _
    (fun e he => by rw [List.eq_of_mem_replicate he]; exact ⟨h1, h2⟩) a

theorem scan_toggle (tog cur : Bool) (sE tE : Event) (t : Nat) (fl : Flag)
    (p : Nat) (tm : Team) (a : Bool) (h1 : sE ≠ Event.grab)
    (h2 : sE ∉ clearing_actual) (h3 : tE ≠ Event.grab)
    (h4 : tE ∉ clearing_actual) :
    scan_grab_ok clearing_actual a (toggle_events tog cur sE tE t fl p tm).1 = true :=
  scan_grab_ok_neutral _ _
    (fun e he => by
      rcases toggle_events_types tog cur sE tE t fl p tm e he with h | h <;>
        rw [h] <;> exact ⟨by assumption, by assumption⟩) a

theorem armed_toggle (tog cur : Bool) (sE tE : Event) (t : Nat) (fl : Flag)
    (p : Nat) (tm : Team) (a : Bool) (h1 : sE ≠ Event.grab)
    (h2 : sE ∉ clearing_actual) (h3 : tE ≠ Event.grab)
    (h4 : tE ∉ clearing_actual) :
    armed_after clearing_actual a (toggle_events tog cur sE tE t fl p tm).1 = a :=
  armed_after_neutral _ _
    (fun e he => by
      rcases toggle_events_types tog cur sE tE t fl p tm e he with h | h <;>
        rw [h] <;> exact ⟨by assumption, by assumption⟩) a


theorem scan_no_grab (cl : List Event) (l : List PlayerEvent)
    (h : ∀ e ∈ l, e.event_type ≠ Event.grab) :
    ∀ a, scan_grab_ok cl a l = true := by
  induction l with
  | nil => intro a; rfl
  | cons e rest ih =>
    intro a
    have h1 := h e (List.mem_cons_self e rest)
    simp only [scan_grab_ok]
    rw [if_neg (by simpa using h1)]
    split
    · exact ih (fun x hx => h x (List.mem_cons_of_mem e hx)) false
    · exact ih (fun x hx => h x (List.mem_cons_of_mem e hx)) a

theorem scan_ite_singleton (c : Prop) [Decidable c] (e : PlayerEvent)
    (a : Bool) (h : (e.event_type == Event.grab) = false) :
    scan_grab_ok clearing_actual a (if c then [e] else []) = true := by
  split
  · rw [scan_one, h]
    rfl
  · rfl

theorem armed_ite_singleton (c : Prop) [Decidable c] (e : PlayerEvent)
    (a : Bool) (h1 : (e.event_type == Event.grab) = false)
    (h2 : e.event_type ∉ clearing_actual) :
    armed_after clearing_actual a (if c then [e] else []) = a := by
  split
  · rw [armed_one, h1]
    simp [h2]
  · rfl

theorem armed_join_seg (c : Prop) [Decidable c] (t : Nat) (fl : Flag)
    (p : Nat) (tm : Team) (a : Bool) :
    armed_after clearing_actual a
      (if c then [⟨Event.join, t, fl, p, tm⟩] else []) = a :=
  armed_ite_singleton c _ a rfl (by simp [clearing_actual])

theorem armed_ret_seg (n t : Nat) (fl : Flag) (p : Nat) (tm : Team) (a : Bool) :
    armed_after clearing_actual a
      (List.replicate n (⟨Event.return_, t, fl, p, tm⟩ : PlayerEvent)) = a :=
  armed_replicate_mk n t fl p tm Event.return_ (by decide) (by decide) a

theorem armed_tag_seg (n t : Nat) (fl : Flag) (p : Nat) (tm : Team) (a : Bool) :
    armed_after clearing_actual a
      (List.replicate n (⟨Event.tag, t, fl, p, tm⟩ : PlayerEvent)) = a :=
  armed_replicate_mk n t fl p tm Event.tag (by decide) (by decide) a

theorem armed_dup_seg (n t : Nat) (fl : Flag) (p : Nat) (tm : Team) (a : Bool) :
    armed_after clearing_actual a
      (List.replicate n (⟨Event.duplicatePowerup, t, fl, p, tm⟩ : PlayerEvent)) = a :=
  armed_replicate_mk n t fl p tm Event.duplicatePowerup (by decide) (by decide) a

theorem armed_prev_seg (tog cur : Bool) (t : Nat) (fl : Flag) (p : Nat)
    (tm : Team) (a : Bool) :
    armed_after clearing_actual a
      (toggle_events tog cur .startPrevent .stopPrevent t fl p tm).1 = a :=
  armed_toggle tog cur _ _ t fl p tm a (by decide) (by decide) (by decide) (by decide)

theorem armed_but_seg (tog cur : Bool) (t : Nat) (fl : Flag) (p : Nat)
    (tm : Team) (a : Bool) :
    armed_after clearing_actual a
      (toggle_events tog cur .startButton .stopButton t fl p tm).1 = a :=
  armed_toggle tog cur _ _ t fl p tm a (by decide) (by decide) (by decide) (by decide)

theorem armed_block_seg (tog cur : Bool) (t : Nat) (fl : Flag) (p : Nat)
    (tm : Team) (a : Bool) :
    armed_after clearing_actual a
      (toggle_events tog cur .startBlock .stopBlock t fl p tm).1 = a :=
  armed_toggle tog cur _ _ t fl p tm a (by decide) (by decide) (by decide) (by decide)

theorem scan_grab_singleton (t : Nat) (fl : Flag) (p : Nat) (tm : Team)
    (a : Bool) :
    scan_grab_ok clearing_actual a [⟨Event.grab, t, fl, p, tm⟩] = !a := by
  simp [scan_grab_ok]

theorem armed_grab_singleton (t : Nat) (fl : Flag) (p : Nat) (tm : Team)
    (a : Bool) :
    armed_after clearing_actual a [⟨Event.grab, t, fl, p, tm⟩] = true := rfl

theorem armed_drop_singleton (t : Nat) (fl : Flag) (p : Nat) (tm : Team)
    (a : Bool) :
    armed_after clearing_actual a [⟨Event.drop, t, fl, p, tm⟩] = false := rfl

theorem armed_pop_singleton (t : Nat) (fl : Flag) (p : Nat) (tm : Team)
    (a : Bool) :
    armed_after clearing_actual a [⟨Event.pop, t, fl, p, tm⟩] = false := rfl

theorem armed_quit_singleton (t : Nat) (fl : Flag) (p : Nat) (tm : Team)
    (a : Bool) :
    armed_after clearing_actual a [⟨Event.quit, t, fl, p, tm⟩] = false := rfl

theorem armed_switch_singleton (t : Nat) (fl : Flag) (p : Nat) (tm : Team)
    (a : Bool) :
    armed_after clearing_actual a [⟨Event.switch, t, fl, p, tm⟩] = false := rfl

theorem scan_pop_res {b : Type} (c1 c2 : Prop) [Decidable c1] [Decidable c2]
    (t1 t2 : Nat) (fl1 fl2 : Flag) (p1 p2 : Nat) (tm1 tm2 : Team)
    (x1 x2 x3 : b) (a : Bool) :
    scan_grab_ok clearing_actual a
      ((if c1 then (if c2 then ([⟨Event.drop, t1, fl1, p1, tm1⟩], x1)
          else ([⟨Event.pop, t2, fl2, p2, tm2⟩], x2))
        else (([] : List PlayerEvent), x3)).1) = true := by
  split
  · split <;> rfl
  · rfl

theorem scan_team_res {b : Type} (c1 c2 : Prop) [Decidable c1] [Decidable c2]
    (t1 t2 : Nat) (fl1 fl2 : Flag) (p1 p2 : Nat) (tm1 tm2 : Team)
    (x1 x2 x3 : b) (a : Bool) :
    scan_grab_ok clearing_actual a
      ((if c1 then (([] : List PlayerEvent), x1)
        else if c2 then ([⟨Event.quit, t1, fl1, p1, tm1⟩], x2)
        else ([⟨Event.switch, t2, fl2, p2, tm2⟩], x3)).1) = true := by
  split
  · rfl
  · split <;> rfl

theorem armed_pop_res {b : Type} (c1 c2 : Prop) [Decidable c1] [Decidable c2]
    (t1 t2 : Nat) (fl1 fl2 : Flag) (p1 p2 : Nat) (tm1 tm2 : Team)
    (x1 x2 x3 : b) (a : Bool) :
    armed_after clearing_actual a
      ((if c1 then (if c2 then ([⟨Event.drop, t1, fl1, p1, tm1⟩], x1)
          else ([⟨Event.pop, t2, fl2, p2, tm2⟩], x2))
        else (([] : List PlayerEvent), x3)).1) = (if c1 then false else a) := by
  split
  · split <;> rfl
  · rfl

theorem armed_team_res {b : Type} (c1 c2 : Prop) [Decidable c1] [Decidable c2]
    (t1 t2 : Nat) (fl1 fl2 : Flag) (p1 p2 : Nat) (tm1 tm2 : Team)
    (x1 x2 x3 : b) (a : Bool) :
    armed_after clearing_actual a
      ((if c1 then (([] : List PlayerEvent), x1)
        else if c2 then ([⟨Event.quit, t1, fl1, p1, tm1⟩], x2)
        else ([⟨Event.switch, t2, fl2, p2, tm2⟩], x3)).1) =
      (if c1 then a else false) := by
  split
  · rfl
  · split <;> rfl

theorem team_res_flag (c1 c2 : Prop) [Decidable c1] [Decidable c2]
    (l2 l3 : List PlayerEvent) (fl : Flag) (n0 n1 n2 : Nat) :
    ((if c1 then (([] : List PlayerEvent), fl, n0)
      else if c2 then (l2, Flag.none, n1) else (l3, Flag.none, n2)).2.1) =
      (if c1 then fl else Flag.none) := by
  split
  · rfl
  · split <;> rfl

theorem pop_res_flag (c1 c2 : Prop) [Decidable c1] [Decidable c2]
    (l1 l2 : List PlayerEvent) (fl1 fl2 : Flag) :
    ((if c1 then (if c2 then (l1, Flag.none) else (l2, fl1))
      else (([] : List PlayerEvent), fl2)).2) =
      (if c1 then (if c2 then Flag.none else fl1) else fl2) := by
  split
  · split <;> rfl
  · rfl

theorem emit_tick_scan (f : TickFields) (r2 : EventsReader) (s : DecoderState)
    (a : Bool) (hInv : s.flag = Flag.none → a = false)
    (hgf : f.grab_occurred = true → s.flag = Flag.none)
    (hnf : f.grab_occurred = true → f.new_flag ≠ Flag.none) :
    scan_grab_ok clearing_actual a (emit_tick f r2 s).1 = true ∧
    ((emit_tick f r2 s).2.flag = Flag.none →
      armed_after clearing_actual a (emit_tick f r2 s).1 = false) := by
  simp only [emit_tick]
  constructor
  · simp only [scan_grab_ok_append, armed_after_append, Bool.and_eq_true]
    repeat' apply And.intro
    · exact scan_ite_singleton _ _ _ rfl
    · exact scan_replicate_mk _ _ _ _ _ Event.return_ (by decide) (by decide) _
    · exact scan_replicate_mk _ _ _ _ _ Event.tag (by decide) (by decide) _
    · by_cases hgx : f.grab_occurred = true
      · rw [if_pos hgx, scan_grab_singleton]
        simp only [armed_join_seg, armed_ret_seg, armed_tag_seg]
        rw [hInv (hgf hgx)]
        rfl
      · rw [if_neg hgx]
        rfl
    · exact scan_capture_events _ _ _ _ _ _ _
    · exact scan_pup_emit _ _ _ _ _ _ _ _
    · exact scan_replicate_mk _ _ _ _ _ Event.duplicatePowerup (by decide) (by decide) _
    · exact scan_toggle _ _ Event.startPrevent Event.stopPrevent _ _ _ _ _
        (by decide) (by decide) (by decide) (by decide)
    · exact scan_toggle _ _ Event.startButton Event.stopButton _ _ _ _ _
        (by decide) (by decide) (by decide) (by decide)
    · exact scan_toggle _ _ Event.startBlock Event.stopBlock _ _ _ _ _
        (by decide) (by decide) (by decide) (by decide)
    · exact scan_pop_res _ _ _ _ _ _ _ _ _ _ _ _ _ _
    · exact scan_team_res _ _ _ _ _ _ _ _ _ _ _ _ _ _
  · intro hfl
    simp only [armed_after_append]
    rw [team_res_flag] at hfl
    rw [armed_team_res]
    by_cases ht : f.new_team =
        (if s.team = Team.none ∧ f.new_team ≠ Team.none then f.new_team else s.team)
    · rw [if_pos ht] at hfl ⊢
      rw [pop_res_flag] at hfl
      rw [armed_pop_res]
      by_cases hp : f.pop_occurred = true
      · rw [if_pos hp]
      · rw [if_neg hp] at hfl ⊢
        simp only [armed_prev_seg, armed_but_seg, armed_block_seg, armed_dup_seg,
          armed_pup_emit]
        cases hnc : f.num_captures with
        | zero =>
          rw [hnc] at hfl
          simp only [capture_events] at hfl ⊢
          by_cases hgx : f.grab_occurred = true
          · rw [if_pos hgx] at hfl
            exact absurd hfl (hnf hgx)
          · rw [if_neg hgx] at hfl
            rw [if_neg hgx]
            simp only [armed_after]
            simp only [armed_join_seg, armed_ret_seg, armed_tag_seg]
            exact hInv hfl
        | succ m =>
          rw [armed_capture_events]
    · rw [if_neg ht]

theorem scan_cons_grab (cl : List Event) (e : PlayerEvent)
    (rest : List PlayerEvent) (a : Bool) (h : e.event_type = Event.grab) :
    scan_grab_ok cl a (e :: rest) = (!a && scan_grab_ok cl true rest) := by
  simp only [scan_grab_ok]
  rw [if_pos (by rw [h]; rfl)]

theorem scan_cons_clearing (cl : List Event) (e : PlayerEvent)
    (rest : List PlayerEvent) (a : Bool) (h1 : e.event_type ≠ Event.grab)
    (h2 : e.event_type ∈ cl) :
    scan_grab_ok cl a (e :: rest) = scan_grab_ok cl false rest := by
  simp only [scan_grab_ok]
  rw [if_neg (by simpa using h1), if_pos h2]

theorem scan_cons_other (cl : List Event) (e : PlayerEvent)
    (rest : List PlayerEvent) (a : Bool) (h1 : e.event_type ≠ Event.grab)
    (h2 : e.event_type ∉ cl) :
    scan_grab_ok cl a (e :: rest) = scan_grab_ok cl a rest := by
  simp only [scan_grab_ok]
  rw [if_neg (by simpa using h1), if_neg h2]

/-- If the scan is already armed (a flag grab is pending) and another `Grab`
appears later, some clearing event must come first. -/
theorem scan_grab_true_split (cl : List Event) (g2 : PlayerEvent)
    (hg2 : g2.event_type = Event.grab) :
    ∀ (l2 l3 : List PlayerEvent),
      scan_grab_ok cl true (l2 ++ g2 :: l3) = true →
      ∃ e ∈ l2, e.event_type ∈ cl := by
  intro l2
  induction l2 with
  | nil =>
    intro l3 h
    rw [List.nil_append, scan_cons_grab cl g2 l3 true hg2] at h
    simp at h
  | cons e r ih =>
    intro l3 h
    rw [List.cons_append] at h
    by_cases hge : e.event_type = Event.grab
    · rw [scan_cons_grab cl e _ true hge] at h
      simp at h
    · by_cases hcl : e.event_type ∈ cl
      · exact ⟨e, List.mem_cons_self e r, hcl⟩
      · rw [scan_cons_other cl e _ true hge hcl] at h
        obtain ⟨w, hw, hwcl⟩ := ih l3 h
        exact ⟨w, List.mem_cons_of_mem e hw, hwcl⟩

/-- A passing scan forces a clearing event between any two `Grab`s. -/
theorem scan_grab_ok_split (cl : List Event) (g1 g2 : PlayerEvent)
    (h1 : g1.event_type = Event.grab) (h2 : g2.event_type = Event.grab) :
    ∀ (l1 : List PlayerEvent) (a : Bool) (l2 l3 : List PlayerEvent),
      scan_grab_ok cl a (l1 ++ g1 :: (l2 ++ g2 :: l3)) = true →
      ∃ e ∈ l2, e.event_type ∈ cl := by
  intro l1
  induction l1 with
  | nil =>
    intro a l2 l3 h
    rw [List.nil_append, scan_cons_grab cl g1 _ a h1, Bool.and_eq_true] at h
    exact scan_grab_true_split cl g2 h2 l2 l3 h.2
  | cons e r ih =>
    intro a l2 l3 h
    rw [List.cons_append] at h
    by_cases hge : e.event_type = Event.grab
    · rw [scan_cons_grab cl e _ a hge, Bool.and_eq_true] at h
      exact ih true l2 l3 h.2
    · by_cases hcl : e.event_type ∈ cl
      · rw [scan_cons_clearing cl e _ a hge hcl] at h
        exact ih false l2 l3 h
      · rw [scan_cons_other cl e _ a hge hcl] at h
        exact ih a l2 l3 h

/-- The per-loop invariant of the decode loop: with the armed bit false
whenever the carried flag is `None`, the whole emitted suffix passes the
grab scan over the actual clearing set. -/
theorem player_events_go_scan (fuel : Nat) :
    ∀ (s : DecoderState) (duration : Nat) (a : Bool),
      (s.flag = Flag.none → a = false) →
      scan_grab_ok clearing_actual a (player_events_go fuel s duration) = true := by
  induction fuel with
  | zero =>
    intro s duration a _
    simp only [player_events_go]
    exact scan_no_grab _ _
      (fun e he => by
        obtain rfl := List.mem_singleton.mp he
        exact fun hc => nomatch hc) a
  | succ n ih =>
    intro s duration a hInv
    by_cases hr : events_remaining s.r
    · simp only [player_events_go, if_pos hr, player_tick]
      rw [scan_grab_ok_append, Bool.and_eq_true]
      have hts := emit_tick_scan (read_tick_fields s.r s.team s.flag s.powerups).1
        (read_tick_fields s.r s.team s.flag s.powerups).2 s a hInv
        (rtf_grab_flag s.r s.team s.flag s.powerups)
        (rtf_new_flag_ne s.r s.team s.flag s.powerups)
      exact ⟨hts.1, ih _ duration _ hts.2⟩
    · simp only [player_events_go, if_neg hr]
      exact scan_no_grab _ _
        (fun e he => by
          obtain rfl := List.mem_singleton.mp he
          exact fun hc => nomatch hc) a

/-- The scan passes on every full decode. -/
theorem player_events_scan (data : List Nat) (team : Team) (duration : Nat) :
    scan_grab_ok clearing_actual false (player_events data team duration) = true := by
  simp only [player_events]
  exact player_events_go_scan (8 * data.length) _ duration false (fun _ => rfl)

/-- **C6** (corrected): in the event sequence returned by `player_events`,
between any two `Grab` events there is an intervening flag-clearing event —
but the clearing set is `Drop`, `Capture`, `FlaglessCapture`, `Pop`,
`Switch` or `Quit` (the decoder also clears the carried flag on a team
change, `events_reader.rs` lines 303-323), not only the four events named
by the claim. -/
theorem flag_invariant (data : List Nat) (team : Team) (duration : Nat)
    (l1 l2 l3 : List PlayerEvent) (g1 g2 : PlayerEvent)
    (hsplit : player_events data team duration = l1 ++ g1 :: (l2 ++ g2 :: l3))
    (h1 : g1.event_type = Event.grab) (h2 : g2.event_type = Event.grab) :
    ∃ e ∈ l2, e.event_type ∈ clearing_actual := by
  have hscan := player_events_scan data team duration
  rw [hsplit] at hscan
  exact scan_grab_ok_split clearing_actual g1 g2 h1 h2 l1 false l2 l3 hscan

/-- Witness for C6: the buffer `[8, 0, 128, 0, 8, 0]` (team Red, duration
100) decodes to `Grab, Switch, Grab, End`, and the theorem produces the
`Switch` as the clearing event between the two `Grab`s. -/
theorem flag_invariant_witness :
    ∃ e ∈ ([⟨Event.switch, 2, Flag.opponent, 0, Team.red⟩] : List PlayerEvent),
      e.event_type ∈ clearing_actual :=
  flag_invariant [8, 0, 128, 0, 8, 0] Team.red 100
    [] [⟨Event.switch, 2, Flag.opponent, 0, Team.red⟩]
    [⟨Event.end_, 100, Flag.opponent, 0, Team.red⟩]
    ⟨Event.grab, 1, Flag.opponent, 0, Team.red⟩
    ⟨Event.grab, 3, Flag.opponent, 0, Team.red⟩
    (by decide) rfl rfl

/-- **C6** counterexample to the claim as stated: the buffer
`[8, 0, 128, 0, 8, 0]` decodes (team Red, duration 100) to
`Grab, Switch, Grab, End` — two `Grab` events with no intervening `Drop`,
`Capture`, `FlaglessCapture` or `Pop`; it is the `Switch` that clears the
flag and re-enables the second grab. -/
theorem flag_claimed_counterexample :
    (player_events [8, 0, 128, 0, 8, 0] Team.red 100).map PlayerEvent.event_type =
      [Event.grab, Event.switch, Event.grab, Event.end_] ∧
    ¬ (∀ (l1 l2 l3 : List PlayerEvent) (g1 g2 : PlayerEvent),
        player_events [8, 0, 128, 0, 8, 0] Team.red 100 = l1 ++ g1 :: (l2 ++ g2 :: l3) →
        g1.event_type = Event.grab → g2.event_type = Event.grab →
        ∃ e ∈ l2, e.event_type ∈ clearing_claimed) := by
  constructor
  · decide
  · intro hall
    have hinst := hall [] [⟨Event.switch, 2, Flag.opponent, 0, Team.red⟩]
      [⟨Event.end_, 100, Flag.opponent, 0, Team.red⟩]
      ⟨Event.grab, 1, Flag.opponent, 0, Team.red⟩
      ⟨Event.grab, 3, Flag.opponent, 0, Team.red⟩
      (by decide) rfl rfl
    revert hinst
    decide

/-! ## The reset characterization (claim C5) -/

theorem claim_sustained_cons (gt gp : Nat) (e : RelevantEvent)
    (rest : List RelevantEvent) :
    claim_sustained gt gp (e :: rest) ↔
      gt + 5 * 60 ≤ e.time ∨
      (interrupts gp e = false ∧ claim_sustained gt gp rest) := by
  constructor
  · rintro ⟨k, hk, htime, hall⟩
    cases k with
    | zero => exact Or.inl htime
    | succ i =>
      refine Or.inr ⟨hall 0 (Nat.succ_pos i), i, ?_, ?_, ?_⟩
      · simpa [List.length_cons] using Nat.lt_of_succ_lt_succ hk
      · simpa [List.getD_cons_succ] using htime
      · intro m hm
        simpa [List.getD_cons_succ] using hall (m + 1) (Nat.succ_lt_succ hm)
  · rintro (h | ⟨hni, k, hk, htime, hall⟩)
    · exact ⟨0, by simp, h, fun m hm => absurd hm (Nat.not_lt_zero m)⟩
    · refine ⟨k + 1, by simpa [List.length_cons] using Nat.succ_lt_succ hk,
        by simpa [List.getD_cons_succ] using htime, ?_⟩
      intro m hm
      cases m with
      | zero => exact hni
      | succ j =>
        simpa [List.getD_cons_succ] using hall j (Nat.lt_of_succ_lt_succ hm)

/-- The inner scan detects exactly the claim's sustained holds. -/
theorem hold_reaches_iff (gt gp : Nat) :
    ∀ l, (hold_reaches gt gp l = true ↔ claim_sustained gt gp l) := by
  intro l
  induction l with
  | nil =>
    simp only [hold_reaches]
    constructor
    · intro h
      exact absurd h (by decide)
    · rintro ⟨k, hk, _⟩
      simp at hk
  | cons e rest ih =>
    rw [claim_sustained_cons]
    simp only [hold_reaches]
    by_cases h1 : gt + 5 * 60 ≤ e.time
    · rw [if_pos h1]
      simp [h1]
    · rw [if_neg h1]
      by_cases h2 : interrupts gp e = true
      · rw [if_pos h2]
        constructor
        · intro h
          exact absurd h (by decide)
        · rintro (h | ⟨hni, _⟩)
          · exact absurd h h1
          · rw [h2] at hni
            exact absurd hni (by decide)
      · rw [if_neg h2]
        rw [ih]
        constructor
        · intro h
          exact Or.inr ⟨by simpa using h2, h⟩
        · rintro (h | ⟨_, h⟩)
          · exact absurd h h1
          · exact h

theorem opposing_cons (rt : Nat) (opp : List Nat) (e : RelevantEvent)
    (rest : List RelevantEvent) :
    opposing_sustained_grab rt opp (e :: rest) ↔
      (e.time ≤ rt + 5 * 60 ∧ e.event_type = Event.grab ∧
        e.player_index ∈ opp ∧ claim_sustained e.time e.player_index rest) ∨
      opposing_sustained_grab rt opp rest := by
  constructor
  · rintro ⟨j, hj, htime, hty, hmem, hsus⟩
    cases j with
    | zero => exact Or.inl ⟨htime, hty, hmem, hsus⟩
    | succ i =>
      refine Or.inr ⟨i, ?_, ?_, ?_, ?_, ?_⟩
      · simpa [List.length_cons] using Nat.lt_of_succ_lt_succ hj
      · simpa [List.getD_cons_succ] using htime
      · simpa [List.getD_cons_succ] using hty
      · simpa [List.getD_cons_succ] using hmem
      · simpa [List.getD_cons_succ, List.drop_succ_cons] using hsus
  · rintro (⟨htime, hty, hmem, hsus⟩ | ⟨j, hj, htime, hty, hmem, hsus⟩)
    · exact ⟨0, by simp, htime, hty, hmem, hsus⟩
    · refine ⟨j + 1, by simpa [List.length_cons] using Nat.succ_lt_succ hj,
        by simpa [List.getD_cons_succ] using htime,
        by simpa [List.getD_cons_succ] using hty,
        by simpa [List.getD_cons_succ] using hmem,
        by simpa [List.getD_cons_succ, List.drop_succ_cons] using hsus⟩

/-- On a time-sorted suffix, the outer scan (which stops at the first event
past the 5-second window) detects exactly the claim's blocking condition
(an opposing grab anywhere in the window with a sustained hold). -/
theorem scan_grabs_iff (rt : Nat) (opp : List Nat) :
    ∀ l, l.Pairwise (fun a b => a.time ≤ b.time) →
      (scan_grabs rt opp l = true ↔ opposing_sustained_grab rt opp l) := by
  intro l
  induction l with
  | nil =>
    intro _
    simp only [scan_grabs]
    constructor
    · intro h
      exact absurd h (by decide)
    · rintro ⟨j, hj, _⟩
      simp at hj
  | cons e rest ih =>
    intro hs
    have hhead := (List.pairwise_cons.mp hs).1
    have htail := (List.pairwise_cons.mp hs).2
    rw [opposing_cons]
    simp only [scan_grabs]
    by_cases h1 : rt + 5 * 60 < e.time
    · rw [if_pos h1]
      constructor
      · intro h
        exact absurd h (by decide)
      · rintro (⟨ht, _⟩ | ⟨j, hj, htj, _⟩)
        · omega
        · rw [List.getD_eq_getElem _ _ hj] at htj
          have := hhead _ (List.getElem_mem hj)
          omega
    · rw [if_neg h1]
      by_cases h2 : (e.event_type == Event.grab &&
          decide (e.player_index ∈ opp)) = true
      · rw [if_pos h2]
        rw [Bool.or_eq_true, hold_reaches_iff, ih htail]
        have hty : e.event_type = Event.grab :=
          eq_of_beq (Bool.and_eq_true .. ▸ h2 |>.1)
        have hmem : e.player_index ∈ opp :=
          of_decide_eq_true ((Bool.and_eq_true _ _).mp h2).2
        constructor
        · rintro (h | h)
          · exact Or.inl ⟨by omega, hty, hmem, h⟩
          · exact Or.inr h
        · rintro (⟨_, _, _, h⟩ | h)
          · exact Or.inl h
          · exact Or.inr h
      · rw [if_neg h2]
        rw [ih htail]
        constructor
        · exact Or.inr
        · rintro (⟨ht, hty, hmem, _⟩ | h)
          · exact absurd (by rw [hty]; simpa using hmem) h2
          · exact h

theorem resets_credits_append (rb bb : List Nat) :
    ∀ l1 l2, resets_credits rb bb (l1 ++ l2) =
      resets_credits_pre rb bb l1 l2 ++ resets_credits rb bb l2 := by
  intro l1 l2
  induction l1 with
  | nil => rfl
  | cons e r ih =>
    simp only [List.cons_append, resets_credits, resets_credits_pre, ih,
      List.append_eq, List.append_assoc]

/-- **C5**: in a timeline decomposed around a `Return` event `e` with
time-sorted continuation `l2`, `process_resets` credits the returning
player exactly one reset at that return if and only if no opposing `Grab`
within the 5-second window after the return sustains a 5-second hold before
being interrupted by a `Grab`, `Capture` or `Drop` by someone else; the
credits contributed by the events before and after `e` are untouched. -/
theorem reset_credited_iff (red_team blue_team : List Nat)
    (l1 l2 : List RelevantEvent) (e : RelevantEvent)
    (he : e.event_type = Event.return_)
    (hs : l2.Pairwise (fun a b => a.time ≤ b.time)) :
    resets_credits red_team blue_team (l1 ++ e :: l2) =
      resets_credits_pre red_team blue_team l1 (e :: l2) ++
      ((if opposing_sustained_grab e.time
            (if e.team == Team.red then blue_team else red_team) l2
        then ([] : List Nat) else [e.player_index]) ++
        resets_credits red_team blue_team l2) := by
  rw [resets_credits_append]
  congr 1
  simp only [resets_credits]
  congr 1
  rw [he]
  by_cases hop : opposing_sustained_grab e.time
      (if e.team == Team.red then blue_team else red_team) l2
  · rw [if_pos hop]
    rw [if_neg]
    intro hcond
    rw [Bool.and_eq_true, Bool.not_eq_true'] at hcond
    rw [(scan_grabs_iff _ _ l2 hs).mpr hop] at hcond
    exact absurd hcond.2 (by decide)
  · rw [if_neg hop]
    rw [if_pos]
    rw [Bool.and_eq_true, Bool.not_eq_true']
    refine ⟨rfl, ?_⟩
    by_cases hsg : scan_grabs e.time
        (if e.team == Team.red then blue_team else red_team) l2 = true
    · exact absurd ((scan_grabs_iff _ _ l2 hs).mp hsg) hop
    · simpa using hsg

/-- Witness for C5, the claim's own scenario: a return at tick 1000 by
player 0 (Red), an opposing grab at tick 1100 by player 1 (Blue) who drops
at tick 1200 (a 100-tick hold, under 300) — the reset is still credited to
player 0. -/
theorem reset_credited_iff_witness :
    resets_credits [0] [1]
      [⟨1000, Event.return_, 0, Team.red⟩, ⟨1100, Event.grab, 1, Team.blue⟩,
       ⟨1200, Event.drop, 1, Team.blue⟩] = [0] := by
  have h := reset_credited_iff [0] [1] []
    [⟨1100, Event.grab, 1, Team.blue⟩, ⟨1200, Event.drop, 1, Team.blue⟩]
    ⟨1000, Event.return_, 0, Team.red⟩ rfl (by decide)
  rw [List.nil_append] at h
  rw [h]
  rw [if_neg (by decide)]
  rfl

end RankedStats
